import Mathlib

/-!
Verification of the ShiftCommander scheduling core against its specification.

The development shallowly embeds the Python tools of the repository:

* `tools/schedule/ensure_dec2025_weeks_and_tow_v1.py` — the idempotent week
  generator (`ensure_week`) and the first-out rotation update (`apply_tow`);
* `tools/schedule/create_week.py` — the non-idempotent generator (only the
  parts the claims touch: the week row and its lock timestamp);
* `tools/schedule/dedupe_sc_seat_records_hard.py` — seat-record reconciliation
  (the `score` function and the hard de-duplication pass);
* `tools/schedule/prune_blank_defaults_when_history_exists_v3.py` — the
  blank-default pruning pass;
* `tools/schedule/fragility_radar_v2.py` — the eligibility evaluator.

Modelling conventions:

* Dates are integer day numbers (days since an arbitrary epoch); timestamps
  are (day, hour) pairs.  The source renders week/shift/seat identifiers as
  strings such as `WEEK_<start>_to_<end>` and `<shift>__<layer>__<unit>__<seat>`;
  since that rendering is injective in its components, identifiers are
  modelled as structured values holding exactly those components.
* SQL tables are lists of rows in rowid (insertion) order; `INSERT` appends,
  `SELECT ... WHERE` is `List.filter`/`List.find?` in list order, matching
  SQLite's behaviour for these queries.
* The human-readable shift `label` column (a `strftime` rendering of the date)
  is presentation-only, claimed by nothing, and omitted from the embedding.
* Python string truthiness (`None` and `""` are falsy) is modelled explicitly
  where the source relies on it.
-/

namespace ShiftCommander

/-- Component view of the week id string `WEEK_<start>_to_<end>`. -/
structure WeekId where
  startDay : Int
  endDay : Int
  deriving DecidableEq

/-- Component view of the shift id string `<week_id>__D<day_index>__<slot>`. -/
structure ShiftId where
  week : WeekId
  dayIndex : Nat
  slot : String
  deriving DecidableEq

/-- Component view of the seat-record id string
`<shift_id>__<layer>__<unit_id>__<seat_id>` (`gen_seat_record_id`). -/
structure SeatId where
  shift : ShiftId
  layer : String
  unit : String
  seat : String
  deriving DecidableEq

/-- A naive local timestamp: day number plus hour of day. -/
structure Timestamp where
  day : Int
  hour : Nat
  deriving DecidableEq

/-- Row of the `sc_weeks` table. -/
structure WeekRow where
  week_id : WeekId
  start_date : Int
  end_date : Int
  lock_dt : Timestamp
  first_out_default_unit_id : String
  status : String
  deriving DecidableEq

/-- Row of the `sc_shifts` table (label column omitted, see header). -/
structure ShiftRow where
  shift_id : ShiftId
  week_id : WeekId
  shift_start : Timestamp
  shift_end : Timestamp
  day_index : Nat
  slot : String
  deriving DecidableEq

/-- Row of the `sc_shift_config` table. -/
structure CfgRow where
  shift_id : ShiftId
  first_out_override_unit_id : Option String
  staffed_unit_id : Option String
  is_salary_only : Bool
  active : Bool
  deriving DecidableEq

/-- Row of the `sc_seat_records` table as written by the generator. -/
structure SeatRow where
  seat_record_id : SeatId
  shift_id : ShiftId
  unit_id : String
  seat_id : String
  layer : String
  assigned_entity_type : String
  assigned_person_id : Option String
  assigned_placeholder_id : Option String
  health_status : String
  note : Option String
  deriving DecidableEq

/-- The four scheduling tables, each in rowid order. -/
structure DB where
  weeks : List WeekRow
  shifts : List ShiftRow
  cfgs : List CfgRow
  seats : List SeatRow
  deriving DecidableEq

def emptyDB : DB := ⟨[], [], [], []⟩

/-- Source `week_id_for`: the week id derived from the start date (end = start + 6). -/
def weekIdFor (start : Int) : WeekId := ⟨start, start + 6⟩

/-- Source `shift_id_for`. -/
def shiftIdFor (wid : WeekId) (dayIndex : Nat) (slot : String) : ShiftId :=
  ⟨wid, dayIndex, slot⟩

/-- Source `gen_seat_record_id`. -/
def genSeatRecordId (sid : ShiftId) (unit seat layer : String) : SeatId :=
  ⟨sid, layer, unit, seat⟩

/-- Source `SEATS = ["ATTENDANT","DRIVER"]`. -/
def SEATS : List String := ["ATTENDANT", "DRIVER"]

/-- Source `LAYERS = [("PRIMARY", True), ("SHADOW", False)]`. -/
def LAYERS : List (String × Bool) := [("PRIMARY", true), ("SHADOW", false)]

/-- The week row inserted by `ensure_week`: lock at 00:00, 28 days before
the start date. -/
def weekRowFor (start : Int) (first_out : String) : WeekRow :=
  { week_id := weekIdFor start
    start_date := start
    end_date := start + 6
    lock_dt := ⟨start - 28, 0⟩
    first_out_default_unit_id := first_out
    status := "DRAFT" }

/-- The DAY shift row for day index `di`: 06:00–18:00 of the same day. -/
def dayShiftRow (wid : WeekId) (start : Int) (di : Nat) : ShiftRow :=
  { shift_id := shiftIdFor wid di "DAY"
    week_id := wid
    shift_start := ⟨start + di, 6⟩
    shift_end := ⟨start + di, 18⟩
    day_index := di
    slot := "DAY" }

/-- The NIGHT shift row for day index `di`: 18:00 to 06:00 of the next day. -/
def nightShiftRow (wid : WeekId) (start : Int) (di : Nat) : ShiftRow :=
  { shift_id := shiftIdFor wid di "NIGHT"
    week_id := wid
    shift_start := ⟨start + di, 18⟩
    shift_end := ⟨start + di + 1, 6⟩
    day_index := di
    slot := "NIGHT" }

/-- The config row inserted by `ensure_week` for a shift that has none. -/
def defaultCfgRow (sid : ShiftId) (first_out : String) : CfgRow :=
  { shift_id := sid
    first_out_override_unit_id := none
    staffed_unit_id := some first_out
    is_salary_only := false
    active := true }

/-- The seat row inserted by `ensure_week` for a missing seat key:
entity type NONE, health UNFILLED, no assignment, no note. -/
def defaultSeatRow (sid : ShiftId) (unit seat layer : String) : SeatRow :=
  { seat_record_id := genSeatRecordId sid unit seat layer
    shift_id := sid
    unit_id := unit
    seat_id := seat
    layer := layer
    assigned_entity_type := "NONE"
    assigned_person_id := none
    assigned_placeholder_id := none
    health_status := "UNFILLED"
    note := none }

/-- Insert the week row unless a row with the same `week_id` exists. -/
def insertWeekIfAbsent (db : DB) (w : WeekRow) : DB :=
  if db.weeks.any (fun r => decide (r.week_id = w.week_id)) then db
  else { db with weeks := db.weeks ++ [w] }

/-- Insert a shift row unless a row with the same `shift_id` exists. -/
def insertShiftIfAbsent (db : DB) (s : ShiftRow) : DB :=
  if db.shifts.any (fun r => decide (r.shift_id = s.shift_id)) then db
  else { db with shifts := db.shifts ++ [s] }

/-- Insert the default config row unless one exists for the shift. -/
def ensureCfg (db : DB) (sid : ShiftId) (first_out : String) : DB :=
  if db.cfgs.any (fun c => decide (c.shift_id = sid)) then db
  else { db with cfgs := db.cfgs ++ [defaultCfgRow sid first_out] }

/-- Insert a seat row unless a row with the same `seat_record_id` exists. -/
def insertSeatIfAbsent (db : DB) (r : SeatRow) : DB :=
  if db.seats.any (fun s => decide (s.seat_record_id = r.seat_record_id)) then db
  else { db with seats := db.seats ++ [r] }

/-- Source `staffed = staffed[0] if staffed and staffed[0] else first_out`:
the staffed unit read from the shift's config row, falling back to
`first_out` when the row is missing or the column is NULL/empty. -/
def readStaffed (db : DB) (sid : ShiftId) (first_out : String) : String :=
  match db.cfgs.find? (fun c => decide (c.shift_id = sid)) with
  | none => first_out
  | some c =>
    match c.staffed_unit_id with
    | none => first_out
    | some u => if u = "" then first_out else u

/-- The per-layer unit list of `ensure_week`: the staffed unit for PRIMARY,
every other rotation unit for SHADOW. -/
def unitsForLayer (units : List String) (staffed : String) (isPrimary : Bool) :
    List String :=
  if isPrimary then [staffed] else units.filter (fun u => !(u == staffed))

/-- The two inner loops of `ensure_week`'s seat block: for each unit of the
layer, ensure the ATTENDANT and DRIVER rows. -/
def ensureSeatsLayer (db : DB) (sid : ShiftId) (layer : String)
    (us : List String) : DB :=
  us.foldl (fun db u =>
    SEATS.foldl (fun db seat =>
      insertSeatIfAbsent db (defaultSeatRow sid u seat layer)) db) db

/-- The seat-ensuring loops of `ensure_week` for one shift. -/
def ensureSeatsFor (db : DB) (units : List String) (sid : ShiftId)
    (staffed : String) : DB :=
  LAYERS.foldl (fun db p =>
    ensureSeatsLayer db sid p.1 (unitsForLayer units staffed p.2)) db

/-- The body of `ensure_week`'s per-shift loop: ensure the config row, read
the staffed unit back, then ensure the seat rows. -/
def processShift (units : List String) (first_out : String) (db : DB)
    (sid : ShiftId) : DB :=
  let db := ensureCfg db sid first_out
  ensureSeatsFor db units sid (readStaffed db sid first_out)

/-- The week-row step of `ensure_week`. -/
def ensureWeekRow (db : DB) (start : Int) (first_out : String) : DB :=
  insertWeekIfAbsent db (weekRowFor start first_out)

/-- The shift-creation loop of `ensure_week` (14 guarded inserts). -/
def ensureShifts (db : DB) (start : Int) : DB :=
  (List.range 7).foldl (fun db di =>
    let db := insertShiftIfAbsent db (dayShiftRow (weekIdFor start) start di)
    insertShiftIfAbsent db (nightShiftRow (weekIdFor start) start di)) db

/-- Query `SELECT shift_id FROM sc_shifts WHERE week_id = ?` in rowid order. -/
def weekSids (db : DB) (wid : WeekId) : List ShiftId :=
  (db.shifts.filter (fun s => decide (s.week_id = wid))).map (fun s => s.shift_id)

/-- Source `ensure_week` of `ensure_dec2025_weeks_and_tow_v1.py`, parameterised by
the rotation unit list (the source's module-level `UNITS`). -/
def ensure_week (units : List String) (db : DB) (start : Int)
    (first_out : String) : DB :=
  let db := ensureWeekRow db start first_out
  let db := ensureShifts db start
  (weekSids db (weekIdFor start)).foldl (processShift units first_out) db

/-- Source `apply_tow`: set the week's default first-out unit and every week
shift's `staffed_unit_id`, touching nothing else. -/
def apply_tow (db : DB) (start : Int) (tow : String) : DB :=
  let wid := weekIdFor start
  let db := { db with weeks := db.weeks.map (fun w =>
    if w.week_id = wid then { w with first_out_default_unit_id := tow } else w) }
  (weekSids db wid).foldl (fun db sid =>
    { db with cfgs := db.cfgs.map (fun c =>
      if c.shift_id = sid then { c with staffed_unit_id := some tow } else c) }) db

/-- The week row built by `create_week` (`create_week.py`): identical to the
ensure variant except that the lock leads the start by `lock_rule_days`. -/
def createWeekRow (start : Int) (first_out : String) (lock_rule_days : Int) :
    WeekRow :=
  { week_id := weekIdFor start
    start_date := start
    end_date := start + 6
    lock_dt := ⟨start - lock_rule_days, 0⟩
    first_out_default_unit_id := first_out
    status := "DRAFT" }

/-- The default value of `create_week`'s `lock_rule_days` parameter. -/
def create_week_lock_rule_days_default : Int := 29

/-! ## Seat reconciler (`dedupe_sc_seat_records_hard.py`,
`prune_blank_defaults_when_history_exists_v3.py`)

These scripts operate on a live `sc_seat_records` table whose ids are free
text (and, in the wild, sometimes NULL), so their rows are modelled with a
plain string id.  `rowid` is SQLite's implicit integer key; a fetched result
set is a list in rowid order. -/

/-- Python `.upper()` (ASCII, which is all the source data uses). -/
def pyUpper (s : String) : String := ⟨s.data.map Char.toUpper⟩

/-- Python `.strip()`. -/
def pyStrip (s : String) : String :=
  ⟨((s.data.dropWhile Char.isWhitespace).reverse.dropWhile
      Char.isWhitespace).reverse⟩

/-- Python truthiness of a nullable string: `None` and `""` are falsy. -/
def truthyS : Option String → Bool
  | none => false
  | some s => !(s == "")

/-- The authoritative history tag. -/
def TAG : String := "HISTORY_DEC2025"

/-- Python `TAG in (r["note"] or "")`: substring containment. -/
def noteHasTag (note : Option String) : Bool :=
  decide (TAG.data <:+: (note.getD "").data)

/-- A row of `sc_seat_records` as the reconciliation scripts see it. -/
structure ScSeatRow where
  rowid : Nat
  seat_record_id : Option String
  shift_id : String
  unit_id : String
  seat_id : String
  layer : String
  assigned_entity_type : String
  assigned_person_id : Option String
  assigned_placeholder_id : Option String
  health_status : String
  note : Option String
  deriving DecidableEq

/-- The duplicate-group key `(shift_id, unit_id, seat_id, layer)`. -/
def sameKey (a b : ScSeatRow) : Bool :=
  a.shift_id == b.shift_id && a.unit_id == b.unit_id &&
    a.seat_id == b.seat_id && a.layer == b.layer

/-- Source `score` of `dedupe_sc_seat_records_hard.py`: +1000 tagged note,
+100 FILLED, +10 assigned entity type, +3 person id, +2 placeholder id. -/
def score (r : ScSeatRow) : Nat :=
  (if noteHasTag r.note then 1000 else 0) +
  (if pyUpper r.health_status = "FILLED" then 100 else 0) +
  (if pyUpper r.assigned_entity_type = "PERSON" ∨
      pyUpper r.assigned_entity_type = "PLACEHOLDER" then 10 else 0) +
  (if truthyS r.assigned_person_id then 3 else 0) +
  (if truthyS r.assigned_placeholder_id then 2 else 0)

/-- Source `sorted(rows, key=score, reverse=True)[0]`: Python's sort is stable, so
the winner is the first row (in fetch = rowid order) attaining the maximal
score. -/
def pickWinner : List ScSeatRow → Option ScSeatRow
  | [] => none
  | r :: rs =>
    match pickWinner rs with
    | none => some r
    | some w => if score w > score r then some w else some r

/-- The winner's note fix-up: when the winner is untagged but a loser is
tagged, the script overwrites the winner's note with the bare tag.  (A tagged
row in the group is automatically a loser in that branch, since the winner is
untagged, so the loser scan is equivalent to a group scan.) -/
def fixWinnerNote (g : List ScSeatRow) (w : ScSeatRow) (r : ScSeatRow) :
    ScSeatRow :=
  if !noteHasTag w.note && g.any (fun l => noteHasTag l.note) then
    { r with note := some TAG }
  else r

/-- The fate of one row under the hard de-duplication script: rows of
singleton key groups are untouched; in a duplicate group the winner row is
kept (note fixed up) and the losers are deleted.  Keeping and deleting act
through `seat_record_id` (the script's UPDATE/DELETE key), which the schema
declares PRIMARY KEY — the id hypotheses of the theorems below. -/
def dedupeDecide (tbl : List ScSeatRow) (r : ScSeatRow) : Option ScSeatRow :=
  let g := tbl.filter (fun x => sameKey x r)
  if g.length ≤ 1 then some r
  else
    match pickWinner g with
    | none => some r
    | some w =>
      if r.seat_record_id = w.seat_record_id then some (fixWinnerNote g w r)
      else none

/-- One run of the hard de-duplication script over the whole table. -/
def dedupePass (tbl : List ScSeatRow) : List ScSeatRow :=
  tbl.filterMap (dedupeDecide tbl)

/-- The blank-default test of `prune_blank_defaults_when_history_exists_v3.py`:
NULL `seat_record_id`, entity type `'NONE'`, no assignment ids, blank note,
and health NULL/blank/UNFILLED (health is NOT NULL here, so the NULL branch
of the SQL predicate is dropped). -/
def blankDefault (b : ScSeatRow) : Bool :=
  b.seat_record_id == none &&
  b.assigned_entity_type == "NONE" &&
  b.assigned_person_id == none &&
  b.assigned_placeholder_id == none &&
  (b.note == none || pyStrip (b.note.getD "") == "") &&
  (pyStrip b.health_status == "" || b.health_status == "UNFILLED")

/-- One run of the v3 pruning script: delete each blank-default row whose
seat key also carries a row with the authoritative history tag in its note. -/
def prunePass (tbl : List ScSeatRow) : List ScSeatRow :=
  tbl.filter (fun b =>
    !(blankDefault b &&
      tbl.any (fun h => sameKey h b && noteHasTag h.note)))

/-! ## Eligibility evaluator (`fragility_radar_v2.py`) -/

/-- A row of `people` as the radar reads it (`active` and `willing_attend`
are stored as integers and compared with `1`). -/
structure Person where
  person_id : String
  active : Int
  willing_attend : Int
  medical_cert : String
  deriving DecidableEq

/-- A row of `person_ops`. -/
structure OpsRow where
  person_id : String
  unit_id : String
  can_operate : Int
  deriving DecidableEq

/-- Source `norm_cert`: `(s or "").strip().upper()` (the roster never stores NULL
certs as Python `None`; a missing cert is the empty string). -/
def norm_cert (s : String) : String := pyUpper (pyStrip s)

/-- Source `is_als`: ALS, PARAMEDIC and MEDIC count as ALS-capable. -/
def is_als (cert : String) : Bool :=
  norm_cert cert == "ALS" || norm_cert cert == "PARAMEDIC" ||
    norm_cert cert == "MEDIC"

/-- Source `is_emt_or_higher`. -/
def is_emt_or_higher (cert : String) : Bool :=
  norm_cert cert == "EMT" || norm_cert cert == "AEMT" ||
    norm_cert cert == "ALS" || norm_cert cert == "PARAMEDIC" ||
    norm_cert cert == "MEDIC"

/-- Membership `p["person_id"] in ops_by_unit[unit]`, with `ops_by_unit` built from the
`person_ops` rows having `can_operate = 1`. -/
def hasOps (ops : List OpsRow) (unit : String) (pid : String) : Bool :=
  ops.any (fun r => r.can_operate == 1 && r.unit_id == unit &&
    r.person_id == pid)

/-- Source `eligible_attendant_pool`: active, willing to attend, EMT or higher. -/
def eligible_attendant_pool (people : List Person) : List Person :=
  people.filter (fun p =>
    p.active == 1 && p.willing_attend == 1 && is_emt_or_higher p.medical_cert)

/-- Source `eligible_driver_pool`: active with unit ops; EMT or higher unless the
`--allow-nonmedical-driver` flag is set. -/
def eligible_driver_pool (people : List Person) (ops : List OpsRow)
    (unit : String) (allow_nonmedical_driver : Bool) : List Person :=
  people.filter (fun p =>
    p.active == 1 && hasOps ops unit p.person_id &&
      (allow_nonmedical_driver || is_emt_or_higher p.medical_cert))

/-- Python `a or b`, on a nullable string with a string fallback. -/
def orDefault (o : Option String) (d : String) : String :=
  match o with
  | none => d
  | some s => if s = "" then d else s

/-- The effective unit of a shift:
`override or staffed or week_default` with Python truthiness. -/
def effectiveUnit (override staffed : Option String) (weekDefault : String) :
    String :=
  orDefault override (orDefault staffed weekDefault)

/-- Result of the per-shift evaluation. -/
structure EvalResult where
  att_pool : List Person
  att_als_pool : List Person
  drv_pool : List Person
  status : String
  reasons : List String
  deriving DecidableEq

def noAttendantReason : String := "No attendant candidates"

/-- The interpolated reason `f"No driver candidates with {unit}_ops"`. -/
def noDriverReason (unit : String) : String :=
  "No driver candidates with " ++ unit ++ "_ops"

def noAlsReason : String := "No ALS available for attendant"

def fragileReason : String := "Fragile: only 1 candidate in a pool"

/-- The per-shift body of `fragility_radar_v2.py`'s main loop: pools, then
the status/reasons cascade, translated statement by statement. -/
def evaluate (people : List Person) (ops : List OpsRow) (unit : String)
    (allow_nonmedical_driver : Bool) : EvalResult :=
  let att_pool := eligible_attendant_pool people
  let att_als_pool := att_pool.filter (fun p => is_als p.medical_cert)
  let drv_pool := eligible_driver_pool people ops unit allow_nonmedical_driver
  let has_att := att_pool.length > 0
  let has_drv := drv_pool.length > 0
  let has_als := att_als_pool.length > 0
  let st0 : String := "GREEN"
  let rs0 : List String := []
  let s1 := if !has_att then ("RED", rs0 ++ [noAttendantReason]) else (st0, rs0)
  let s2 := if !has_drv then ("RED", s1.2 ++ [noDriverReason unit]) else s1
  let s3 := if has_att && !has_als && !(s2.1 == "RED") then
      ("YELLOW", s2.2 ++ [noAlsReason])
    else s2
  let s4 := if s3.1 == "GREEN" &&
      (att_pool.length ≤ 1 || drv_pool.length ≤ 1) then
      ("YELLOW", s3.2 ++ [fragileReason])
    else s3
  { att_pool := att_pool
    att_als_pool := att_als_pool
    drv_pool := drv_pool
    status := s4.1
    reasons := s4.2 }

/-! ## General helper lemmas -/

theorem foldl_fixed {α β : Type _} (f : β → α → β) (b : β) (l : List α)
    (h : ∀ x ∈ l, f b x = b) : l.foldl f b = b := by
  induction l with
  | nil => rfl
  | cons a t ih =>
    rw [List.foldl_cons, h a (List.mem_cons_self a t)]
    exact ih (fun x hx => h x (List.mem_cons_of_mem a hx))

theorem forall₂_map_self {α : Type _} (R : α → α → Prop) (f : α → α)
    (l : List α) (h : ∀ x ∈ l, R x (f x)) : List.Forall₂ R l (l.map f) := by
  induction l with
  | nil => exact List.Forall₂.nil
  | cons a t ih =>
    exact List.Forall₂.cons (h a (List.mem_cons_self a t))
      (ih (fun x hx => h x (List.mem_cons_of_mem a hx)))

/-! ## Claim C10 — lock timestamps -/

/-- Claim C10, counterexample: the claim says every generated week's lock
timestamp is the start date minus a default lead of 28 days at 00:00, but the
week row generated by `create_week` with its default `lock_rule_days` for
start day 0 has lock day `-29`, not `-28`. -/
theorem create_week_lock_lead_time_cx :
    (createWeekRow 0 "AMB121" create_week_lock_rule_days_default).lock_dt =
      ⟨-29, 0⟩ ∧
    (createWeekRow 0 "AMB121" create_week_lock_rule_days_default).lock_dt ≠
      ⟨0 - 28, 0⟩ := by
  constructor
  · rfl
  · decide

/-- Claim C10, amended: every week row written by the ensure-variant
generator has lock timestamp = start date minus 28 days at 00:00, while
`create_week` writes start date minus `lock_rule_days` days at 00:00 and its
`lock_rule_days` parameter defaults to 29, not 28. -/
theorem lock_lead_time_spec (start : Int) (fo : String) (d : Int) :
    (weekRowFor start fo).lock_dt = ⟨start - 28, 0⟩ ∧
    (createWeekRow start fo d).lock_dt = ⟨start - d, 0⟩ ∧
    create_week_lock_rule_days_default = 29 :=
  ⟨rfl, rfl, rfl⟩

/-! ## Claim C3 — `apply_tow` frame property -/

theorem applyTowFold_cfgs (tow : String) (sids : List ShiftId) (db : DB) :
    sids.foldl (fun db sid =>
      { db with cfgs := db.cfgs.map (fun c =>
        if c.shift_id = sid then { c with staffed_unit_id := some tow }
        else c) }) db =
    { db with cfgs := db.cfgs.map (fun c =>
      if c.shift_id ∈ sids then { c with staffed_unit_id := some tow }
      else c) } := by
  induction sids generalizing db with
  | nil => simp
  | cons sid rest ih =>
    rw [List.foldl_cons, ih]
    congr 1
    rw [List.map_map]
    apply List.map_congr_left
    intro c _
    by_cases hc : c.shift_id = sid
    · simp [Function.comp, hc]
    · simp [Function.comp, hc]

/-- Claim C3: for every existing week, `apply_tow` leaves shifts and seat
records entirely unchanged, rewrites exactly the matching week row's default
first-out unit (all other week fields and rows untouched), and rewrites
exactly the `staffed_unit_id` of the config rows of the week's shifts
(overrides, salary flags and active flags untouched everywhere). -/
theorem apply_tow_frame_spec (db : DB) (start : Int) (tow : String)
    (hw : ∃ w ∈ db.weeks, w.week_id = weekIdFor start) :
    (apply_tow db start tow).shifts = db.shifts ∧
    (apply_tow db start tow).seats = db.seats ∧
    List.Forall₂ (fun (w w' : WeekRow) =>
      w'.week_id = w.week_id ∧ w'.start_date = w.start_date ∧
      w'.end_date = w.end_date ∧ w'.lock_dt = w.lock_dt ∧
      w'.status = w.status ∧
      w'.first_out_default_unit_id =
        (if w.week_id = weekIdFor start then tow
         else w.first_out_default_unit_id))
      db.weeks (apply_tow db start tow).weeks ∧
    (∃ w' ∈ (apply_tow db start tow).weeks,
      w'.week_id = weekIdFor start ∧ w'.first_out_default_unit_id = tow) ∧
    List.Forall₂ (fun (c c' : CfgRow) =>
      c'.shift_id = c.shift_id ∧
      c'.first_out_override_unit_id = c.first_out_override_unit_id ∧
      c'.is_salary_only = c.is_salary_only ∧ c'.active = c.active ∧
      c'.staffed_unit_id =
        (if c.shift_id ∈ weekSids db (weekIdFor start) then some tow
         else c.staffed_unit_id))
      db.cfgs (apply_tow db start tow).cfgs := by
  have hunfold : apply_tow db start tow =
      { db with
        weeks := db.weeks.map (fun w =>
          if w.week_id = weekIdFor start then
            { w with first_out_default_unit_id := tow } else w)
        cfgs := db.cfgs.map (fun c =>
          if c.shift_id ∈ weekSids db (weekIdFor start) then
            { c with staffed_unit_id := some tow } else c) } := by
    unfold apply_tow
    rw [applyTowFold_cfgs]
    rfl
  refine ⟨by rw [hunfold], by rw [hunfold], ?_, ?_, ?_⟩
  · rw [hunfold]
    apply forall₂_map_self
    intro w _
    by_cases hweq : w.week_id = weekIdFor start
    · simp [hweq]
    · simp [hweq]
  · rw [hunfold]
    obtain ⟨w, hwmem, hwid⟩ := hw
    refine ⟨{ w with first_out_default_unit_id := tow }, ?_, hwid, rfl⟩
    have := List.mem_map_of_mem (fun w =>
      if w.week_id = weekIdFor start then
        { w with first_out_default_unit_id := tow } else w) hwmem
    simpa [hwid] using this
  · rw [hunfold]
    apply forall₂_map_self
    intro c _
    by_cases hceq : c.shift_id ∈ weekSids db (weekIdFor start)
    · simp [hceq]
    · simp [hceq]

/-- Claim C3, witness instance. -/
theorem apply_tow_frame_spec_witness :
    ∃ w' ∈ (apply_tow ⟨[weekRowFor 0 "AMB120"], [], [], []⟩ 0 "AMB121").weeks,
      w'.week_id = weekIdFor 0 ∧ w'.first_out_default_unit_id = "AMB121" :=
  (apply_tow_frame_spec ⟨[weekRowFor 0 "AMB120"], [], [], []⟩ 0 "AMB121"
    ⟨weekRowFor 0 "AMB120", by decide⟩).2.2.2.1

/-! ## Eligibility evaluator: closed form and claims C7, C8, C9 -/

/-- Closed form of the v2 per-shift evaluation: pools as computed, the
status cascade, and the exact reason list (note the no-ALS reason is only
recorded when both pools are nonempty, and the fragility reason only when
additionally an ALS attendant exists). -/
theorem evaluate_eq (people : List Person) (ops : List OpsRow) (unit : String)
    (allow : Bool) :
    evaluate people ops unit allow =
      { att_pool := eligible_attendant_pool people
        att_als_pool := (eligible_attendant_pool people).filter
          (fun p => is_als p.medical_cert)
        drv_pool := eligible_driver_pool people ops unit allow
        status :=
          if eligible_attendant_pool people = [] ∨
              eligible_driver_pool people ops unit allow = [] then "RED"
          else if (eligible_attendant_pool people).filter
              (fun p => is_als p.medical_cert) = [] then "YELLOW"
          else if (eligible_attendant_pool people).length ≤ 1 ∨
              (eligible_driver_pool people ops unit allow).length ≤ 1 then
            "YELLOW"
          else "GREEN"
        reasons :=
          (if eligible_attendant_pool people = [] then [noAttendantReason]
           else []) ++
          (if eligible_driver_pool people ops unit allow = [] then
             [noDriverReason unit] else []) ++
          (if eligible_attendant_pool people ≠ [] ∧
              eligible_driver_pool people ops unit allow ≠ [] ∧
              (eligible_attendant_pool people).filter
                (fun p => is_als p.medical_cert) = [] then [noAlsReason]
           else []) ++
          (if eligible_attendant_pool people ≠ [] ∧
              eligible_driver_pool people ops unit allow ≠ [] ∧
              (eligible_attendant_pool people).filter
                (fun p => is_als p.medical_cert) ≠ [] ∧
              ((eligible_attendant_pool people).length ≤ 1 ∨
                (eligible_driver_pool people ops unit allow).length ≤ 1) then
             [fragileReason]
           else []) } := by
  by_cases hA : eligible_attendant_pool people = [] <;>
    by_cases hD : eligible_driver_pool people ops unit allow = [] <;>
    by_cases hL : (eligible_attendant_pool people).filter
      (fun p => is_als p.medical_cert) = [] <;>
    by_cases hF : (eligible_attendant_pool people).length ≤ 1 ∨
      (eligible_driver_pool people ops unit allow).length ≤ 1 <;>
    simp_all [evaluate, List.length_pos, List.length_eq_zero]
  all_goals
    obtain ⟨x, hx, hals⟩ := hL
    have hnall : ¬∀ a ∈ eligible_attendant_pool people,
        is_als a.medical_cert = false :=
      fun hall => by simp [hall x hx] at hals
    have hF1 : ¬((eligible_attendant_pool people).length ≤ 1 ∨
        (eligible_driver_pool people ops unit allow).length ≤ 1) := by omega
    simp [hnall, hF1]

/-- Concrete roster rows for witness instances. -/
def pEMT : Person := ⟨"P1", 1, 1, "EMT"⟩

def pALS : Person := ⟨"P2", 1, 1, "ALS"⟩

def opsAMB : List OpsRow := [⟨"P1", "AMB120", 1⟩, ⟨"P2", "AMB120", 1⟩]

/-- Claim C7: the status is the ordered cascade (RED on an empty pool, else
YELLOW without an ALS-capable attendant, else YELLOW when a pool has exactly
one candidate, else GREEN); a shift whose effective unit has no ops-capable
roster row is RED and reports the no-driver reason; with an ALS-capable
attendant and both pools of size at least 2 the status is GREEN. -/
theorem evaluate_status_spec (people : List Person) (ops : List OpsRow)
    (unit : String) (allow : Bool) :
    ((evaluate people ops unit allow).status =
      if eligible_attendant_pool people = [] ∨
          eligible_driver_pool people ops unit allow = [] then "RED"
      else if (eligible_attendant_pool people).filter
          (fun p => is_als p.medical_cert) = [] then "YELLOW"
      else if (eligible_attendant_pool people).length = 1 ∨
          (eligible_driver_pool people ops unit allow).length = 1 then
        "YELLOW"
      else "GREEN") ∧
    (∀ ov st : Option String, ∀ dflt : String,
      (∀ r ∈ ops, r.unit_id = effectiveUnit ov st dflt → r.can_operate ≠ 1) →
      (evaluate people ops (effectiveUnit ov st dflt) allow).status = "RED" ∧
      noDriverReason (effectiveUnit ov st dflt) ∈
        (evaluate people ops (effectiveUnit ov st dflt) allow).reasons) ∧
    ((eligible_attendant_pool people).filter
        (fun p => is_als p.medical_cert) ≠ [] →
      2 ≤ (eligible_attendant_pool people).length →
      2 ≤ (eligible_driver_pool people ops unit allow).length →
      (evaluate people ops unit allow).status = "GREEN") := by
  refine ⟨?_, ?_, ?_⟩
  · rw [evaluate_eq]
    by_cases hRed : eligible_attendant_pool people = [] ∨
        eligible_driver_pool people ops unit allow = []
    · simp [hRed]
    · by_cases hL : (eligible_attendant_pool people).filter
          (fun p => is_als p.medical_cert) = []
      · simp [hRed, hL]
      · have hA : eligible_attendant_pool people ≠ [] := fun h => hRed (Or.inl h)
        have hD : eligible_driver_pool people ops unit allow ≠ [] :=
          fun h => hRed (Or.inr h)
        have hA1 : 1 ≤ (eligible_attendant_pool people).length :=
          List.length_pos.mpr hA
        have hD1 : 1 ≤ (eligible_driver_pool people ops unit allow).length :=
          List.length_pos.mpr hD
        have hiff : ((eligible_attendant_pool people).length ≤ 1 ∨
            (eligible_driver_pool people ops unit allow).length ≤ 1) ↔
            ((eligible_attendant_pool people).length = 1 ∨
            (eligible_driver_pool people ops unit allow).length = 1) := by
          omega
        simp [hRed, hL, hiff]
  · intro ov st dflt hops
    have hD : eligible_driver_pool people ops (effectiveUnit ov st dflt)
        allow = [] := by
      apply List.filter_eq_nil_iff.mpr
      intro p _
      simp only [Bool.and_eq_true, not_and, Bool.or_eq_true]
      rintro ⟨-, hhas⟩
      rcases List.any_eq_true.mp hhas with ⟨r, hr, hcond⟩
      simp only [Bool.and_eq_true, beq_iff_eq] at hcond
      exact absurd hcond.1.1 (hops r hr hcond.1.2)
    rw [evaluate_eq]
    constructor
    · simp [hD]
    · simp [hD]
  · intro hL hA2 hD2
    rw [evaluate_eq]
    have hA : eligible_attendant_pool people ≠ [] := by
      intro h
      rw [h] at hL
      exact hL rfl
    have hD : eligible_driver_pool people ops unit allow ≠ [] := by
      intro h
      rw [h] at hD2
      simp at hD2
    have hF : ¬((eligible_attendant_pool people).length ≤ 1 ∨
        (eligible_driver_pool people ops unit allow).length ≤ 1) := by omega
    simp [hA, hD, hL, hF]

/-- Claim C7, witness: a roster with one EMT attendant and no ops rows is
RED with the no-driver reason for the effective unit AMB120; a roster with
an ALS attendant and two drivers for AMB120 is GREEN. -/
theorem evaluate_status_spec_witness :
    ((evaluate [pEMT] [] (effectiveUnit none none "AMB120") false).status =
        "RED" ∧
      noDriverReason (effectiveUnit none none "AMB120") ∈
        (evaluate [pEMT] [] (effectiveUnit none none "AMB120") false).reasons) ∧
    (evaluate [pEMT, pALS] opsAMB "AMB120" false).status = "GREEN" :=
  ⟨(evaluate_status_spec [pEMT] [] "x" false).2.1 none none "AMB120"
      (by simp),
    (evaluate_status_spec [pEMT, pALS] opsAMB "AMB120" false).2.2
      (by decide) (by decide) (by decide)⟩

/-- Claim C8: the attendant pool is exactly the active, willing persons with
a normalized certification in EMT/AEMT/ALS/PARAMEDIC/MEDIC; the ALS-capable
subset is exactly those among them with ALS/PARAMEDIC/MEDIC; the driver pool
is exactly the active persons with a `can_operate = 1` ops row for the unit,
requiring EMT-or-higher unless the non-medical-driver flag is set. -/
theorem evaluate_pools_spec (people : List Person) (ops : List OpsRow)
    (unit : String) (allow : Bool) (p : Person) :
    ((p ∈ (evaluate people ops unit allow).att_pool) ↔
      p ∈ people ∧ p.active = 1 ∧ p.willing_attend = 1 ∧
      norm_cert p.medical_cert ∈
        (["EMT", "AEMT", "ALS", "PARAMEDIC", "MEDIC"] : List String)) ∧
    ((p ∈ (evaluate people ops unit allow).att_als_pool) ↔
      p ∈ (evaluate people ops unit allow).att_pool ∧
      norm_cert p.medical_cert ∈
        (["ALS", "PARAMEDIC", "MEDIC"] : List String)) ∧
    ((p ∈ (evaluate people ops unit allow).drv_pool) ↔
      p ∈ people ∧ p.active = 1 ∧
      (∃ r ∈ ops, r.can_operate = 1 ∧ r.unit_id = unit ∧
        r.person_id = p.person_id) ∧
      (allow = true ∨ norm_cert p.medical_cert ∈
        (["EMT", "AEMT", "ALS", "PARAMEDIC", "MEDIC"] : List String))) := by
  rw [evaluate_eq]
  refine ⟨?_, ?_, ?_⟩
  · simp only [List.mem_cons, List.mem_singleton]
    simp [eligible_attendant_pool, List.mem_filter, is_emt_or_higher,
      and_assoc]
    tauto
  · simp [List.mem_filter, is_als, eligible_attendant_pool, is_emt_or_higher,
      and_assoc]
    tauto
  · simp only [List.mem_cons, List.mem_singleton]
    simp [eligible_driver_pool, List.mem_filter, hasOps, is_emt_or_higher,
      and_assoc]
    tauto

/-- Claim C8, witness instance: the EMT person is in the attendant pool of
the two-person roster, and in the AMB120 driver pool. -/
theorem evaluate_pools_spec_witness :
    pEMT ∈ (evaluate [pEMT, pALS] opsAMB "AMB120" false).att_pool ∧
    pEMT ∈ (evaluate [pEMT, pALS] opsAMB "AMB120" false).drv_pool :=
  ⟨(evaluate_pools_spec [pEMT, pALS] opsAMB "AMB120" false pEMT).1.mpr
      (by decide),
    (evaluate_pools_spec [pEMT, pALS] opsAMB "AMB120" false
      pEMT).2.2.mpr (by decide)⟩

/-- Claim C9, counterexample: a shift that is RED for lacking drivers and
whose attendant pool (one EMT) has no ALS-capable member reports only the
no-driver reason — the no-ALS reason is suppressed because the status is
already RED, contradicting the claim that every triggering condition is
reported. -/
theorem evaluate_reasons_cx :
    (evaluate [pEMT] [] "AMB120" false).status = "RED" ∧
    (evaluate [pEMT] [] "AMB120" false).att_pool ≠ [] ∧
    (evaluate [pEMT] [] "AMB120" false).att_als_pool = [] ∧
    (evaluate [pEMT] [] "AMB120" false).drv_pool = [] ∧
    (evaluate [pEMT] [] "AMB120" false).reasons =
      [noDriverReason "AMB120"] ∧
    noAlsReason ∉ (evaluate [pEMT] [] "AMB120" false).reasons := by
  decide

/-- Claim C9, amended: the empty-attendant-pool and empty-driver-pool
reasons are always reported when they hold (so a doubly-RED shift reports
both), but the no-ALS reason is reported only when both pools are nonempty,
and the single-candidate fragility reason only when additionally an
ALS-capable attendant exists. -/
theorem evaluate_reasons_spec (people : List Person) (ops : List OpsRow)
    (unit : String) (allow : Bool) :
    (evaluate people ops unit allow).reasons =
      (if eligible_attendant_pool people = [] then [noAttendantReason]
       else []) ++
      (if eligible_driver_pool people ops unit allow = [] then
        [noDriverReason unit] else []) ++
      (if eligible_attendant_pool people ≠ [] ∧
          eligible_driver_pool people ops unit allow ≠ [] ∧
          (eligible_attendant_pool people).filter
            (fun p => is_als p.medical_cert) = [] then [noAlsReason]
       else []) ++
      (if eligible_attendant_pool people ≠ [] ∧
          eligible_driver_pool people ops unit allow ≠ [] ∧
          (eligible_attendant_pool people).filter
            (fun p => is_als p.medical_cert) ≠ [] ∧
          ((eligible_attendant_pool people).length ≤ 1 ∨
            (eligible_driver_pool people ops unit allow).length ≤ 1) then
        [fragileReason]
       else []) := by
  rw [evaluate_eq]

/-! ## Seat reconciler: winner selection (claim C4) -/

theorem pickWinner_eq_none {l : List ScSeatRow} :
    pickWinner l = none ↔ l = [] := by
  cases l with
  | nil => simp [pickWinner]
  | cons a t =>
    cases h : pickWinner t with
    | none => simp [pickWinner, h]
    | some w =>
      rw [pickWinner]
      simp only [h]
      split <;> simp

theorem pickWinner_mem {l : List ScSeatRow} {w : ScSeatRow}
    (h : pickWinner l = some w) : w ∈ l := by
  induction l generalizing w with
  | nil => simp [pickWinner] at h
  | cons a t ih =>
    rw [pickWinner] at h
    cases ht : pickWinner t with
    | none =>
      simp only [ht] at h
      exact (Option.some_inj.mp h) ▸ List.mem_cons_self a t
    | some w' =>
      simp only [ht] at h
      by_cases hgt : score w' > score a
      · rw [if_pos hgt] at h
        obtain rfl := Option.some_inj.mp h
        exact List.mem_cons_of_mem a (ih ht)
      · rw [if_neg hgt] at h
        exact (Option.some_inj.mp h) ▸ List.mem_cons_self a t

theorem pickWinner_max {l : List ScSeatRow} {w : ScSeatRow}
    (h : pickWinner l = some w) : ∀ r ∈ l, score r ≤ score w := by
  induction l generalizing w with
  | nil => simp
  | cons a t ih =>
    rw [pickWinner] at h
    intro r hr
    cases ht : pickWinner t with
    | none =>
      simp only [ht] at h
      obtain rfl := Option.some_inj.mp h
      rcases List.mem_cons.mp hr with rfl | hrt
      · exact le_refl _
      · exact absurd (pickWinner_eq_none.mp ht ▸ hrt) (List.not_mem_nil r)
    | some w' =>
      simp only [ht] at h
      by_cases hgt : score w' > score a
      · rw [if_pos hgt] at h
        obtain rfl := Option.some_inj.mp h
        rcases List.mem_cons.mp hr with rfl | hrt
        · exact le_of_lt hgt
        · exact ih ht r hrt
      · rw [if_neg hgt] at h
        obtain rfl := Option.some_inj.mp h
        rcases List.mem_cons.mp hr with rfl | hrt
        · exact le_refl _
        · exact le_trans (ih ht r hrt) (not_lt.mp hgt)

theorem pickWinner_first {l : List ScSeatRow} {w : ScSeatRow}
    (h : pickWinner l = some w)
    (hsorted : l.Pairwise (fun a b => a.rowid < b.rowid)) :
    ∀ r ∈ l, r ≠ w → score r < score w ∨ w.rowid < r.rowid := by
  induction l generalizing w with
  | nil => simp
  | cons a t ih =>
    rw [pickWinner] at h
    rcases List.pairwise_cons.mp hsorted with ⟨ha, ht'⟩
    intro r hr hne
    cases ht : pickWinner t with
    | none =>
      simp only [ht] at h
      obtain rfl := Option.some_inj.mp h
      rcases List.mem_cons.mp hr with rfl | hrt
      · exact absurd rfl hne
      · exact absurd (pickWinner_eq_none.mp ht ▸ hrt) (List.not_mem_nil r)
    | some w' =>
      simp only [ht] at h
      by_cases hgt : score w' > score a
      · rw [if_pos hgt] at h
        obtain rfl := Option.some_inj.mp h
        rcases List.mem_cons.mp hr with rfl | hrt
        · exact Or.inl hgt
        · exact ih ht ht' r hrt hne
      · rw [if_neg hgt] at h
        obtain rfl := Option.some_inj.mp h
        rcases List.mem_cons.mp hr with rfl | hrt
        · exact absurd rfl hne
        · exact Or.inr (ha r hrt)

/-- Claim C4: on a nonempty duplicate group fetched in rowid (creation)
order, the reconciler's winner exists, belongs to the group, attains the
maximal score, and strictly dominates every other row in the lexicographic
order (score descending, then rowid ascending) — so it is the unique such
row and a deterministic function of the record set. -/
theorem reconcile_winner_spec (rows : List ScSeatRow) (hne : rows ≠ [])
    (hsorted : rows.Pairwise (fun a b => a.rowid < b.rowid)) :
    ∃ w, pickWinner rows = some w ∧ w ∈ rows ∧
      (∀ r ∈ rows, score r ≤ score w) ∧
      (∀ r ∈ rows, r ≠ w → score r < score w ∨ w.rowid < r.rowid) := by
  cases h : pickWinner rows with
  | none => exact absurd (pickWinner_eq_none.mp h) hne
  | some w =>
    exact ⟨w, rfl, pickWinner_mem h, pickWinner_max h,
      pickWinner_first h hsorted⟩

/-- Duplicate group used in the reconciliation witnesses: two rows with the
same seat key and tying scores (both PERSON-assigned, both FILLED). -/
def c4rowA : ScSeatRow :=
  { rowid := 1, seat_record_id := some "SR_A", shift_id := "S1"
    unit_id := "AMB120", seat_id := "ATTENDANT", layer := "PRIMARY"
    assigned_entity_type := "PERSON", assigned_person_id := some "P1"
    assigned_placeholder_id := none, health_status := "FILLED", note := none }

def c4rowB : ScSeatRow :=
  { rowid := 2, seat_record_id := some "SR_B", shift_id := "S1"
    unit_id := "AMB120", seat_id := "ATTENDANT", layer := "PRIMARY"
    assigned_entity_type := "PERSON", assigned_person_id := some "P2"
    assigned_placeholder_id := none, health_status := "FILLED", note := none }

/-- Claim C4, witness: on the concrete tying group the winner exists with
the stated properties (it is the earlier row `c4rowA`). -/
theorem reconcile_winner_spec_witness :
    ∃ w, pickWinner [c4rowA, c4rowB] = some w ∧ w ∈ [c4rowA, c4rowB] ∧
      (∀ r ∈ [c4rowA, c4rowB], score r ≤ score w) ∧
      (∀ r ∈ [c4rowA, c4rowB], r ≠ w →
        score r < score w ∨ w.rowid < r.rowid) :=
  reconcile_winner_spec [c4rowA, c4rowB] (by decide)
    (by simp [c4rowA, c4rowB, List.pairwise_cons])

/-! ## Seat reconciler: de-duplication pass (claims C5, C6) -/

theorem sameKey_iff {a b : ScSeatRow} :
    sameKey a b = true ↔ a.shift_id = b.shift_id ∧ a.unit_id = b.unit_id ∧
      a.seat_id = b.seat_id ∧ a.layer = b.layer := by
  simp [sameKey, and_assoc]

theorem sameKey_refl (a : ScSeatRow) : sameKey a a = true :=
  sameKey_iff.mpr ⟨rfl, rfl, rfl, rfl⟩

theorem sameKey_symm {a b : ScSeatRow} (h : sameKey a b = true) :
    sameKey b a = true := by
  rcases sameKey_iff.mp h with ⟨h1, h2, h3, h4⟩
  exact sameKey_iff.mpr ⟨h1.symm, h2.symm, h3.symm, h4.symm⟩

theorem sameKey_trans {a b c : ScSeatRow} (h1 : sameKey a b = true)
    (h2 : sameKey b c = true) : sameKey a c = true := by
  rcases sameKey_iff.mp h1 with ⟨x1, x2, x3, x4⟩
  rcases sameKey_iff.mp h2 with ⟨y1, y2, y3, y4⟩
  exact sameKey_iff.mpr ⟨x1.trans y1, x2.trans y2, x3.trans y3, x4.trans y4⟩

theorem sameKey_congr_right {r r0 : ScSeatRow} (h : sameKey r r0 = true)
    (x : ScSeatRow) : sameKey x r = sameKey x r0 := by
  rw [Bool.eq_iff_iff]
  exact ⟨fun hx => sameKey_trans hx h,
    fun hx => sameKey_trans hx (sameKey_symm h)⟩

theorem fixWinnerNote_sameKey (g : List ScSeatRow) (w r y : ScSeatRow) :
    sameKey (fixWinnerNote g w r) y = sameKey r y := by
  unfold fixWinnerNote
  split <;> rfl

theorem dedupeDecide_some_key {tbl : List ScSeatRow} {r x : ScSeatRow}
    (h : dedupeDecide tbl r = some x) (y : ScSeatRow) :
    sameKey x y = sameKey r y := by
  simp only [dedupeDecide] at h
  split at h
  · obtain rfl := Option.some_inj.mp h
    rfl
  · split at h
    · obtain rfl := Option.some_inj.mp h
      rfl
    · split at h
      · obtain rfl := Option.some_inj.mp h
        exact fixWinnerNote_sameKey _ _ _ y
      · exact absurd h (by simp)

theorem filter_filterMap_comm {f : ScSeatRow → Option ScSeatRow}
    {p : ScSeatRow → Bool}
    (hf : ∀ r x, f r = some x → p x = p r) (l : List ScSeatRow) :
    (l.filterMap f).filter p = (l.filter p).filterMap f := by
  induction l with
  | nil => rfl
  | cons a t ih =>
    cases hfa : f a with
    | none =>
      simp only [List.filterMap_cons, hfa, List.filter_cons]
      cases hpa : p a <;> simp [hpa, ih, List.filterMap_cons, hfa]
    | some x =>
      have hpx : p x = p a := hf a x hfa
      simp only [List.filterMap_cons, hfa, List.filter_cons]
      cases hpa : p a <;>
        simp [hpa, hpx, ih, List.filterMap_cons, List.filter_cons, hfa]

theorem filterMap_eq_self_of_some {f : ScSeatRow → Option ScSeatRow}
    {l : List ScSeatRow} (h : ∀ a ∈ l, f a = some a) : l.filterMap f = l := by
  induction l with
  | nil => rfl
  | cons a t ih =>
    rw [List.filterMap_cons, h a (List.mem_cons_self a t)]
    rw [ih (fun x hx => h x (List.mem_cons_of_mem a hx))]

theorem filterMap_match_id {g : List ScSeatRow} {w : ScSeatRow}
    (hw : w ∈ g)
    (hnd : (g.map (fun r => r.seat_record_id)).Nodup)
    (h : ScSeatRow → ScSeatRow) :
    g.filterMap (fun r =>
      if r.seat_record_id = w.seat_record_id then some (h r) else none) =
      [h w] := by
  induction g with
  | nil => exact absurd hw (List.not_mem_nil w)
  | cons a t ih =>
    rw [List.map_cons, List.nodup_cons] at hnd
    rcases hnd with ⟨hna, hnt⟩
    rcases List.mem_cons.mp hw with rfl | hwt
    · simp only [List.filterMap_cons, if_pos rfl]
      have hzero : t.filterMap (fun r =>
          if r.seat_record_id = w.seat_record_id then some (h r)
          else none) = [] := by
        rw [List.filterMap_eq_nil_iff]
        intro r hr
        rw [if_neg]
        intro hidr
        exact hna (hidr ▸ List.mem_map_of_mem _ hr)
      rw [hzero]
      simp
    · have hne : ¬ a.seat_record_id = w.seat_record_id := fun hidr =>
        hna (hidr ▸ List.mem_map_of_mem _ hwt)
      simp only [List.filterMap_cons, if_neg hne]
      exact ih hwt hnt

theorem two_le_length_of_two_mem {α : Type _} {a b : α} {l : List α}
    (ha : a ∈ l) (hb : b ∈ l) (hne : a ≠ b) : 2 ≤ l.length := by
  induction l with
  | nil => exact absurd ha (List.not_mem_nil a)
  | cons c t ih =>
    rcases List.mem_cons.mp ha with rfl | hat
    · rcases List.mem_cons.mp hb with rfl | hbt
      · exact absurd rfl hne
      · have := List.length_pos.mpr (List.ne_nil_of_mem hbt)
        simp only [List.length_cons]
        omega
    · have := List.length_pos.mpr (List.ne_nil_of_mem hat)
      simp only [List.length_cons]
      omega

theorem dedupeDecide_group_eq {tbl : List ScSeatRow} {r r0 : ScSeatRow}
    (h : sameKey r r0 = true) :
    tbl.filter (fun x => sameKey x r) = tbl.filter (fun x => sameKey x r0) :=
  List.filter_congr (fun x _ => sameKey_congr_right h x)

theorem dedupePass_filter (tbl : List ScSeatRow) (r0 : ScSeatRow) :
    (dedupePass tbl).filter (fun x => sameKey x r0) =
      (tbl.filter (fun x => sameKey x r0)).filterMap (dedupeDecide tbl) :=
  filter_filterMap_comm
    (fun r x h => dedupeDecide_some_key h r0) tbl

theorem dedupePass_group_small {tbl : List ScSeatRow} {r0 : ScSeatRow}
    (hlen : (tbl.filter (fun x => sameKey x r0)).length ≤ 1) :
    (dedupePass tbl).filter (fun x => sameKey x r0) =
      tbl.filter (fun x => sameKey x r0) := by
  rw [dedupePass_filter]
  apply filterMap_eq_self_of_some
  intro r hr
  have hkey : sameKey r r0 = true := (List.mem_filter.mp hr).2
  simp only [dedupeDecide]
  rw [dedupeDecide_group_eq hkey, if_pos hlen]

theorem dedupePass_group_big {tbl : List ScSeatRow} {r0 w : ScSeatRow}
    (hnd : (tbl.map (fun r => r.seat_record_id)).Nodup)
    (hlen : 1 < (tbl.filter (fun x => sameKey x r0)).length)
    (hw : pickWinner (tbl.filter (fun x => sameKey x r0)) = some w) :
    (dedupePass tbl).filter (fun x => sameKey x r0) =
      [fixWinnerNote (tbl.filter (fun x => sameKey x r0)) w w] := by
  rw [dedupePass_filter]
  have hgnd : ((tbl.filter (fun x => sameKey x r0)).map
      (fun r => r.seat_record_id)).Nodup :=
    ((List.filter_sublist tbl).map (fun r => r.seat_record_id)).nodup hnd
  have hcongr : (tbl.filter (fun x => sameKey x r0)).filterMap
      (dedupeDecide tbl) =
      (tbl.filter (fun x => sameKey x r0)).filterMap (fun r =>
        if r.seat_record_id = w.seat_record_id then
          some (fixWinnerNote (tbl.filter (fun x => sameKey x r0)) w r)
        else none) := by
    apply List.filterMap_congr
    intro r hr
    have hkey : sameKey r r0 = true := (List.mem_filter.mp hr).2
    simp only [dedupeDecide]
    rw [dedupeDecide_group_eq hkey, if_neg (by omega)]
    simp only [hw]
  rw [hcongr]
  exact filterMap_match_id (pickWinner_mem hw) hgnd _

/-- Claim C6: under the schema's PRIMARY KEY constraint on
`seat_record_id`, one run of the hard de-duplication pass leaves exactly one
row per populated seat key, and a second run is the identity. -/
theorem dedupe_pass_fixed_point (tbl : List ScSeatRow)
    (hid : ∀ r ∈ tbl, r.seat_record_id.isSome = true)
    (hnd : (tbl.map (fun r => r.seat_record_id)).Nodup) :
    (∀ r ∈ tbl,
      ((dedupePass tbl).filter (fun x => sameKey x r)).length = 1) ∧
    dedupePass (dedupePass tbl) = dedupePass tbl := by
  have part1 : ∀ r ∈ tbl,
      ((dedupePass tbl).filter (fun x => sameKey x r)).length = 1 := by
    intro r hr
    have hrg : r ∈ tbl.filter (fun x => sameKey x r) :=
      List.mem_filter.mpr ⟨hr, sameKey_refl r⟩
    by_cases hlen : (tbl.filter (fun x => sameKey x r)).length ≤ 1
    · rw [dedupePass_group_small hlen]
      have h1 : 1 ≤ (tbl.filter (fun x => sameKey x r)).length :=
        List.length_pos.mpr (List.ne_nil_of_mem hrg)
      omega
    · push_neg at hlen
      obtain ⟨w, hw⟩ : ∃ w,
          pickWinner (tbl.filter (fun x => sameKey x r)) = some w := by
        cases hpw : pickWinner (tbl.filter (fun x => sameKey x r)) with
        | none =>
          rw [pickWinner_eq_none] at hpw
          rw [hpw] at hrg
          exact absurd hrg (List.not_mem_nil r)
        | some w => exact ⟨w, rfl⟩
      rw [dedupePass_group_big hnd hlen hw]
      rfl
  refine ⟨part1, ?_⟩
  show (dedupePass tbl).filterMap (dedupeDecide (dedupePass tbl)) =
    dedupePass tbl
  apply filterMap_eq_self_of_some
  intro x hx
  obtain ⟨r, hr, hsome⟩ := List.mem_filterMap.mp hx
  have hxr : sameKey x r = true := by
    rw [dedupeDecide_some_key hsome r]
    exact sameKey_refl r
  have hgrp : (dedupePass tbl).filter (fun y => sameKey y x) =
      (dedupePass tbl).filter (fun y => sameKey y r) :=
    List.filter_congr (fun y _ => sameKey_congr_right hxr y)
  simp only [dedupeDecide]
  rw [hgrp, if_pos (le_of_eq (part1 r hr))]

/-- Third row for the fixed-point witness, on a different seat key. -/
def c6other : ScSeatRow :=
  { rowid := 3, seat_record_id := some "SR_C", shift_id := "S1"
    unit_id := "AMB120", seat_id := "DRIVER", layer := "PRIMARY"
    assigned_entity_type := "NONE", assigned_person_id := none
    assigned_placeholder_id := none, health_status := "UNFILLED"
    note := none }

/-- Claim C6, witness: on a concrete table with one duplicate pair and one
singleton key, each key keeps exactly one row and a second pass changes
nothing. -/
theorem dedupe_pass_fixed_point_witness :
    (∀ r ∈ [c4rowA, c4rowB, c6other],
      ((dedupePass [c4rowA, c4rowB, c6other]).filter
        (fun x => sameKey x r)).length = 1) ∧
    dedupePass (dedupePass [c4rowA, c4rowB, c6other]) =
      dedupePass [c4rowA, c4rowB, c6other] :=
  dedupe_pass_fixed_point [c4rowA, c4rowB, c6other] (by decide) (by decide)

/-- A PERSON-assigned, FILLED seat row without the history tag (score 113). -/
def c5data : ScSeatRow :=
  { rowid := 1, seat_record_id := some "SR_A", shift_id := "S1"
    unit_id := "AMB120", seat_id := "ATTENDANT", layer := "PRIMARY"
    assigned_entity_type := "PERSON", assigned_person_id := some "P1"
    assigned_placeholder_id := none, health_status := "FILLED", note := none }

/-- A blank row of the same seat key whose note carries the authoritative
history tag (score 1000). -/
def c5blankTagged : ScSeatRow :=
  { rowid := 2, seat_record_id := some "SR_B", shift_id := "S1"
    unit_id := "AMB120", seat_id := "ATTENDANT", layer := "PRIMARY"
    assigned_entity_type := "NONE", assigned_person_id := none
    assigned_placeholder_id := none, health_status := "UNFILLED"
    note := some "HISTORY_DEC2025" }

/-- Claim C5, counterexample: the de-duplication pass deletes the row with a
real person assignment and keeps the blank row, because the blank row's
tagged note scores 1000 against the assigned row's 113 — so the claim's
"regardless of the records' other fields (notes, tags, ...)" fails. -/
theorem reconcile_blank_over_assigned_cx :
    dedupePass [c5data, c5blankTagged] = [c5blankTagged] ∧
    truthyS c5data.assigned_person_id = true ∧
    c5blankTagged.assigned_person_id = none ∧
    c5blankTagged.assigned_placeholder_id = none ∧
    c5data ∉ dedupePass [c5data, c5blankTagged] := by
  decide

/-- Claim C5, amended: when the blank record is a true blank default — no
authoritative tag in its note, not marked FILLED, entity type neither PERSON
nor PLACEHOLDER, and no assignment ids — the de-duplication pass never keeps
it for a key that also holds a record with real assignment data (the blank
scores 0, any data-carrying record at least 2, so the blank is always a
loser); and the v3 pruning pass never deletes any record carrying a person
or placeholder id. -/
theorem reconcile_keeps_assigned_over_blank_default
    (tbl : List ScSeatRow) (b d : ScSeatRow)
    (hid : ∀ r ∈ tbl, r.seat_record_id.isSome = true)
    (hnd : (tbl.map (fun r => r.seat_record_id)).Nodup)
    (hb : b ∈ tbl) (hd : d ∈ tbl) (hkey : sameKey d b = true)
    (hdata : truthyS d.assigned_person_id = true ∨
      truthyS d.assigned_placeholder_id = true)
    (hb1 : noteHasTag b.note = false)
    (hb2 : pyUpper b.health_status ≠ "FILLED")
    (hb3 : pyUpper b.assigned_entity_type ≠ "PERSON")
    (hb4 : pyUpper b.assigned_entity_type ≠ "PLACEHOLDER")
    (hb5 : b.assigned_person_id = none)
    (hb6 : b.assigned_placeholder_id = none) :
    b ∉ dedupePass tbl ∧
    ∀ r ∈ tbl, (truthyS r.assigned_person_id = true ∨
      truthyS r.assigned_placeholder_id = true) → r ∈ prunePass tbl := by
  have hscoreb : score b = 0 := by
    simp [score, hb1, hb2, hb3, hb4, hb5, hb6, truthyS]
  have hne : d ≠ b := by
    intro he
    rcases hdata with hp | hpl
    · rw [he, hb5] at hp
      simp [truthyS] at hp
    · rw [he, hb6] at hpl
      simp [truthyS] at hpl
  have hscored : 2 ≤ score d := by
    rcases hdata with hp | hpl
    · simp only [score, hp, if_true]
      split_ifs <;> omega
    · simp only [score, hpl, if_true]
      split_ifs <;> omega
  constructor
  · intro hmem
    obtain ⟨r, hr, hsome⟩ := List.mem_filterMap.mp hmem
    have hbg : b ∈ tbl.filter (fun x => sameKey x b) :=
      List.mem_filter.mpr ⟨hb, sameKey_refl b⟩
    have hdg : d ∈ tbl.filter (fun x => sameKey x b) :=
      List.mem_filter.mpr ⟨hd, hkey⟩
    have h2 : 2 ≤ (tbl.filter (fun x => sameKey x b)).length :=
      two_le_length_of_two_mem hdg hbg hne
    simp only [dedupeDecide] at hsome
    split at hsome
    next hlen =>
      obtain rfl := Option.some_inj.mp hsome
      omega
    next hlen =>
      cases hpw : pickWinner (tbl.filter (fun x => sameKey x r)) with
      | none =>
        rw [pickWinner_eq_none] at hpw
        have hrg : r ∈ tbl.filter (fun x => sameKey x r) :=
          List.mem_filter.mpr ⟨hr, sameKey_refl r⟩
        rw [hpw] at hrg
        exact absurd hrg (List.not_mem_nil r)
      | some w =>
        simp only [hpw] at hsome
        split at hsome
        next hidr =>
          obtain heq := Option.some_inj.mp hsome
          have hwmem : w ∈ tbl :=
            (List.mem_filter.mp (pickWinner_mem hpw)).1
          obtain rfl : r = w :=
            List.inj_on_of_nodup_map hnd hr hwmem hidr
          have hkb : ∀ y, sameKey b y = sameKey r y := fun y => by
            rw [← heq, fixWinnerNote_sameKey]
          have hbr : sameKey b r = true := by
            rw [hkb r]
            exact sameKey_refl r
          have hdr : sameKey d r = true :=
            sameKey_trans hkey hbr
          have hdg' : d ∈ tbl.filter (fun x => sameKey x r) :=
            List.mem_filter.mpr ⟨hd, hdr⟩
          have hsw : 2 ≤ score r := le_trans hscored
            (pickWinner_max hpw d hdg')
          have hge2 : 2 ≤ score b := by
            rw [← heq]
            unfold fixWinnerNote
            split
            · have htag : noteHasTag (some TAG) = true := by decide
              simp only [score, htag, if_true]
              split_ifs <;> omega
            · exact hsw
          omega
        next =>
          exact absurd hsome (by simp)
  · intro r hr hrdata
    have hbd : blankDefault r = false := by
      rcases hrdata with hp | hpl
      · cases hpr : r.assigned_person_id with
        | none =>
          rw [hpr] at hp
          simp [truthyS] at hp
        | some v => simp [blankDefault, hpr]
      · cases hpr : r.assigned_placeholder_id with
        | none =>
          rw [hpr] at hpl
          simp [truthyS] at hpl
        | some v => simp [blankDefault, hpr]
    exact List.mem_filter.mpr ⟨hr, by simp [prunePass, hbd]⟩

/-- An untagged blank-default row sharing `c5data`'s seat key. -/
def c5blankDefault : ScSeatRow :=
  { rowid := 3, seat_record_id := some "SR_D", shift_id := "S1"
    unit_id := "AMB120", seat_id := "ATTENDANT", layer := "PRIMARY"
    assigned_entity_type := "NONE", assigned_person_id := none
    assigned_placeholder_id := none, health_status := "UNFILLED"
    note := none }

/-- Claim C5 (amended), witness: on a concrete table the blank default is
deleted and the assigned row kept by both passes. -/
theorem reconcile_keeps_assigned_witness :
    c5blankDefault ∉ dedupePass [c5data, c5blankDefault] ∧
    ∀ r ∈ [c5data, c5blankDefault],
      (truthyS r.assigned_person_id = true ∨
        truthyS r.assigned_placeholder_id = true) →
      r ∈ prunePass [c5data, c5blankDefault] :=
  reconcile_keeps_assigned_over_blank_default
    [c5data, c5blankDefault] c5blankDefault c5data (by decide) (by decide)
    (by decide) (by decide) (by decide) (by decide) (by decide) (by decide)
    (by decide) (by decide) (by decide) (by decide)

/-! ## Week generator: closed form on a fresh database (claim C1) -/

theorem insertWeek_fresh (db : DB) (w : WeekRow)
    (h : ∀ r ∈ db.weeks, r.week_id ≠ w.week_id) :
    insertWeekIfAbsent db w = { db with weeks := db.weeks ++ [w] } := by
  unfold insertWeekIfAbsent
  rw [if_neg]
  simp only [List.any_eq_true, decide_eq_true_eq, not_exists]
  exact fun r hpair => h r hpair.1 hpair.2

theorem insertShift_fresh (db : DB) (s : ShiftRow)
    (h : ∀ r ∈ db.shifts, r.shift_id ≠ s.shift_id) :
    insertShiftIfAbsent db s = { db with shifts := db.shifts ++ [s] } := by
  unfold insertShiftIfAbsent
  rw [if_neg]
  simp only [List.any_eq_true, decide_eq_true_eq, not_exists]
  exact fun r hpair => h r hpair.1 hpair.2

theorem insertShift_skip (db : DB) (s : ShiftRow)
    (h : ∃ r ∈ db.shifts, r.shift_id = s.shift_id) :
    insertShiftIfAbsent db s = db := by
  unfold insertShiftIfAbsent
  rw [if_pos]
  simp only [List.any_eq_true, decide_eq_true_eq]
  exact h

theorem ensureCfg_fresh (db : DB) (sid : ShiftId) (fo : String)
    (h : ∀ c ∈ db.cfgs, c.shift_id ≠ sid) :
    ensureCfg db sid fo = { db with cfgs := db.cfgs ++ [defaultCfgRow sid fo] } := by
  unfold ensureCfg
  rw [if_neg]
  simp only [List.any_eq_true, decide_eq_true_eq, not_exists]
  exact fun c hpair => h c hpair.1 hpair.2

theorem ensureCfg_skip (db : DB) (sid : ShiftId) (fo : String)
    (h : ∃ c ∈ db.cfgs, c.shift_id = sid) :
    ensureCfg db sid fo = db := by
  unfold ensureCfg
  rw [if_pos]
  simp only [List.any_eq_true, decide_eq_true_eq]
  exact h

theorem insertSeat_fresh (db : DB) (row : SeatRow)
    (h : ∀ r ∈ db.seats, r.seat_record_id ≠ row.seat_record_id) :
    insertSeatIfAbsent db row = { db with seats := db.seats ++ [row] } := by
  unfold insertSeatIfAbsent
  rw [if_neg]
  simp only [List.any_eq_true, decide_eq_true_eq, not_exists]
  exact fun r hpair => h r hpair.1 hpair.2

theorem insertSeat_skip (db : DB) (row : SeatRow)
    (h : ∃ r ∈ db.seats, r.seat_record_id = row.seat_record_id) :
    insertSeatIfAbsent db row = db := by
  unfold insertSeatIfAbsent
  rw [if_pos]
  simp only [List.any_eq_true, decide_eq_true_eq]
  exact h

theorem find?_append_left_none {α : Type _} {p : α → Bool} {l₁ l₂ : List α}
    (h : ∀ x ∈ l₁, p x = false) :
    (l₁ ++ l₂).find? p = l₂.find? p := by
  induction l₁ with
  | nil => rfl
  | cons a t ih =>
    rw [List.cons_append, List.find?_cons_of_neg _
      (by simp [h a (List.mem_cons_self a t)])]
    exact ih (fun x hx => h x (List.mem_cons_of_mem a hx))

/-- The 14 shift rows of the week for `start`, in insertion order. -/
def weekShiftRows (start : Int) : List ShiftRow :=
  (List.range 7).bind (fun di =>
    [dayShiftRow (weekIdFor start) start di,
     nightShiftRow (weekIdFor start) start di])

/-- The seat rows `ensure_week` creates for one shift with staffed unit
`fo`: PRIMARY attendant/driver for `fo`, then SHADOW attendant/driver for
every other rotation unit, in insertion order. -/
def shiftSeats (units : List String) (fo : String) (sid : ShiftId) :
    List SeatRow :=
  [defaultSeatRow sid fo "ATTENDANT" "PRIMARY",
   defaultSeatRow sid fo "DRIVER" "PRIMARY"] ++
  (units.filter (fun u => !(u == fo))).bind (fun u =>
    [defaultSeatRow sid u "ATTENDANT" "SHADOW",
     defaultSeatRow sid u "DRIVER" "SHADOW"])

theorem ensureSeatsLayer_clean (sid : ShiftId) (layer : String)
    (us : List String) (db : DB) (hnd : us.Nodup)
    (hfresh : ∀ r ∈ db.seats, ∀ u ∈ us, ∀ seat : String,
      r.seat_record_id ≠ genSeatRecordId sid u seat layer) :
    ensureSeatsLayer db sid layer us =
    { db with seats := db.seats ++ us.bind (fun u =>
        [defaultSeatRow sid u "ATTENDANT" layer,
         defaultSeatRow sid u "DRIVER" layer]) } := by
  unfold ensureSeatsLayer
  induction us generalizing db with
  | nil => simp
  | cons u rest ih =>
    rw [List.nodup_cons] at hnd
    rcases hnd with ⟨hu, hrest⟩
    rw [List.foldl_cons]
    have e1 : SEATS.foldl (fun db seat =>
        insertSeatIfAbsent db (defaultSeatRow sid u seat layer)) db =
        { db with seats := db.seats ++
          [defaultSeatRow sid u "ATTENDANT" layer,
           defaultSeatRow sid u "DRIVER" layer] } := by
      show insertSeatIfAbsent (insertSeatIfAbsent db
        (defaultSeatRow sid u "ATTENDANT" layer))
        (defaultSeatRow sid u "DRIVER" layer) = _
      rw [insertSeat_fresh db _ (fun r hr =>
        hfresh r hr u (List.mem_cons_self u rest) "ATTENDANT")]
      rw [insertSeat_fresh _ _ ?_]
      · simp
      · intro r hr
        rcases List.mem_append.mp hr with hold | hnew
        · exact hfresh r hold u (List.mem_cons_self u rest) "DRIVER"
        · rw [List.mem_singleton.mp hnew]
          simp [defaultSeatRow, genSeatRecordId]
    rw [e1, ih _ hrest ?_]
    · simp [List.append_assoc]
    · intro r hr u' hu' seat
      rcases List.mem_append.mp hr with hold | hnew
      · exact hfresh r hold u' (List.mem_cons_of_mem u hu') seat
      · have hne : u' ≠ u := fun he => hu (he ▸ hu')
        rcases List.mem_cons.mp hnew with rfl | hnew2
        · simp [defaultSeatRow, genSeatRecordId, Ne.symm hne]
        · rw [List.mem_singleton.mp hnew2]
          simp [defaultSeatRow, genSeatRecordId, Ne.symm hne]

theorem processShift_clean (units : List String) (fo : String) (db : DB)
    (sid : ShiftId) (hu : units.Nodup)
    (hcfg : ∀ c ∈ db.cfgs, c.shift_id ≠ sid)
    (hseats : ∀ r ∈ db.seats, r.seat_record_id.shift ≠ sid) :
    processShift units fo db sid =
      { db with cfgs := db.cfgs ++ [defaultCfgRow sid fo]
                seats := db.seats ++ shiftSeats units fo sid } := by
  show ensureSeatsFor (ensureCfg db sid fo) units sid
    (readStaffed (ensureCfg db sid fo) sid fo) = _
  rw [ensureCfg_fresh db sid fo hcfg]
  have hread : ∀ dbx : DB, dbx.cfgs = db.cfgs ++ [defaultCfgRow sid fo] →
      readStaffed dbx sid fo = fo := by
    intro dbx hx
    unfold readStaffed
    rw [hx, find?_append_left_none (fun c hc => by simp [hcfg c hc]),
      List.find?_cons_of_pos _ (by simp [defaultCfgRow])]
    simp [defaultCfgRow]
  rw [hread _ rfl]
  unfold ensureSeatsFor
  show ensureSeatsLayer (ensureSeatsLayer
      { db with cfgs := db.cfgs ++ [defaultCfgRow sid fo] } sid "PRIMARY" [fo])
      sid "SHADOW" (units.filter (fun u => !(u == fo))) = _
  rw [ensureSeatsLayer_clean sid "PRIMARY" [fo] _ (by simp) ?hp]
  case hp =>
    intro r hr u _ seat he
    exact hseats r hr (by rw [he]; rfl)
  rw [ensureSeatsLayer_clean sid "SHADOW" (units.filter (fun u => !(u == fo)))
    _ (hu.filter _) ?hs]
  case hs =>
    intro r hr u' _ seat he
    rcases List.mem_append.mp hr with hold | hnew
    · exact hseats r hold (by rw [he]; rfl)
    · have hcase : r = defaultSeatRow sid fo "ATTENDANT" "PRIMARY" ∨
          r = defaultSeatRow sid fo "DRIVER" "PRIMARY" := by
        simpa using hnew
      rcases hcase with rfl | rfl <;>
        simp [defaultSeatRow, genSeatRecordId] at he
  simp [shiftSeats, List.append_assoc]

theorem ensureShiftsAux (start : Int) (l : List Nat) (db : DB)
    (hnd : l.Nodup)
    (hfresh : ∀ s ∈ db.shifts, ∀ di ∈ l, ∀ slot : String,
      s.shift_id ≠ shiftIdFor (weekIdFor start) di slot) :
    l.foldl (fun db di =>
      insertShiftIfAbsent (insertShiftIfAbsent db
        (dayShiftRow (weekIdFor start) start di))
        (nightShiftRow (weekIdFor start) start di)) db =
    { db with shifts := db.shifts ++ l.bind (fun di =>
        [dayShiftRow (weekIdFor start) start di,
         nightShiftRow (weekIdFor start) start di]) } := by
  induction l generalizing db with
  | nil => simp
  | cons di rest ih =>
    rw [List.nodup_cons] at hnd
    rcases hnd with ⟨hdi, hrest⟩
    rw [List.foldl_cons]
    rw [insertShift_fresh db _ (fun r hr =>
      hfresh r hr di (List.mem_cons_self di rest) "DAY")]
    rw [insertShift_fresh _ _ ?nfr]
    case nfr =>
      intro r hr
      rcases List.mem_append.mp hr with hold | hnew
      · exact hfresh r hold di (List.mem_cons_self di rest) "NIGHT"
      · rw [List.mem_singleton.mp hnew]
        simp [dayShiftRow, nightShiftRow, shiftIdFor]
    rw [ih _ hrest ?fr]
    · simp [List.append_assoc]
    case fr =>
      intro r hr di' hdi' slot
      have hne : di' ≠ di := fun he => hdi (he ▸ hdi')
      rcases List.mem_append.mp hr with hr1 | hnight
      · rcases List.mem_append.mp hr1 with hold | hday
        · exact hfresh r hold di' (List.mem_cons_of_mem di hdi') slot
        · rw [List.mem_singleton.mp hday]
          simp [dayShiftRow, shiftIdFor, Ne.symm hne]
      · rw [List.mem_singleton.mp hnight]
        simp [nightShiftRow, shiftIdFor, Ne.symm hne]

theorem ensureShifts_clean (db : DB) (start : Int)
    (hfresh : ∀ s ∈ db.shifts, ∀ di : Nat, ∀ slot : String,
      s.shift_id ≠ shiftIdFor (weekIdFor start) di slot) :
    ensureShifts db start =
      { db with shifts := db.shifts ++ weekShiftRows start } :=
  ensureShiftsAux start (List.range 7) db (List.nodup_range 7)
    (fun s hs di _ slot => hfresh s hs di slot)

theorem shiftSeats_mem_shift {units : List String} {fo : String}
    {sid : ShiftId} {r : SeatRow} (hr : r ∈ shiftSeats units fo sid) :
    r.seat_record_id.shift = sid ∧ r.shift_id = sid := by
  simp only [shiftSeats, List.mem_append, List.mem_cons, List.mem_bind,
    List.not_mem_nil, or_false] at hr
  rcases hr with (rfl | rfl) | ⟨u, -, rfl | rfl⟩ <;> exact ⟨rfl, rfl⟩

theorem foldProcess_clean (units : List String) (fo : String)
    (sids : List ShiftId) (db : DB) (hu : units.Nodup) (hnd : sids.Nodup)
    (hcfg : ∀ c ∈ db.cfgs, ∀ sid ∈ sids, c.shift_id ≠ sid)
    (hseats : ∀ r ∈ db.seats, ∀ sid ∈ sids, r.seat_record_id.shift ≠ sid) :
    sids.foldl (processShift units fo) db =
      { db with cfgs := db.cfgs ++ sids.map (fun sid => defaultCfgRow sid fo)
                seats := db.seats ++ sids.bind (shiftSeats units fo) } := by
  induction sids generalizing db with
  | nil => simp
  | cons sid rest ih =>
    rw [List.nodup_cons] at hnd
    rcases hnd with ⟨hsid, hrest⟩
    rw [List.foldl_cons,
      processShift_clean units fo db sid hu
        (fun c hc => hcfg c hc sid (List.mem_cons_self sid rest))
        (fun r hr => hseats r hr sid (List.mem_cons_self sid rest)),
      ih _ hrest ?hc ?hs]
    · simp [List.append_assoc]
    case hc =>
      intro c hc sid' hsid'
      rcases List.mem_append.mp hc with hold | hnew
      · exact hcfg c hold sid' (List.mem_cons_of_mem sid hsid')
      · rw [List.mem_singleton.mp hnew]
        intro he
        apply hsid
        have h2 : sid = sid' := he
        rw [h2]
        exact hsid'
    case hs =>
      intro r hr sid' hsid'
      rcases List.mem_append.mp hr with hold | hnew
      · exact hseats r hold sid' (List.mem_cons_of_mem sid hsid')
      · rw [(shiftSeats_mem_shift hnew).1]
        intro he
        apply hsid
        rw [he]
        exact hsid'

theorem weekShiftRows_week_id {start : Int} :
    ∀ s ∈ weekShiftRows start, s.week_id = weekIdFor start := by
  intro s hs
  simp only [weekShiftRows, List.mem_bind, List.mem_range, List.mem_cons,
    List.not_mem_nil, or_false] at hs
  rcases hs with ⟨di, -, rfl | rfl⟩ <;> rfl

/-- The shift ids of the generated week. -/
def weekSidList (start : Int) : List ShiftId :=
  (weekShiftRows start).map (fun s => s.shift_id)

theorem weekSidList_nodup (start : Int) : (weekSidList start).Nodup := by
  apply List.Nodup.of_map (fun i => (i.dayIndex, i.slot))
  have he : (weekSidList start).map (fun i => (i.dayIndex, i.slot)) =
      [(0, "DAY"), (0, "NIGHT"), (1, "DAY"), (1, "NIGHT"), (2, "DAY"),
       (2, "NIGHT"), (3, "DAY"), (3, "NIGHT"), (4, "DAY"), (4, "NIGHT"),
       (5, "DAY"), (5, "NIGHT"), (6, "DAY"), (6, "NIGHT")] := rfl
  rw [he]
  decide

set_option maxHeartbeats 1000000 in
/-- Closed form of `ensure_week` on the empty database. -/
theorem ensure_week_empty_eq (units : List String) (start : Int)
    (fo : String) (hu : units.Nodup) :
    ensure_week units emptyDB start fo =
      { weeks := [weekRowFor start fo]
        shifts := weekShiftRows start
        cfgs := (weekSidList start).map (fun sid => defaultCfgRow sid fo)
        seats := (weekSidList start).bind (shiftSeats units fo) } := by
  show (weekSids (ensureShifts (ensureWeekRow emptyDB start fo) start)
      (weekIdFor start)).foldl (processShift units fo)
    (ensureShifts (ensureWeekRow emptyDB start fo) start) = _
  have e1 : ensureWeekRow emptyDB start fo =
      ({ weeks := [weekRowFor start fo], shifts := [], cfgs := [],
         seats := [] } : DB) := by
    unfold ensureWeekRow
    rw [insertWeek_fresh _ _ (fun r hr => absurd hr (List.not_mem_nil r))]
    rfl
  rw [e1]
  have e2 : ensureShifts
      ({ weeks := [weekRowFor start fo], shifts := [], cfgs := [],
         seats := [] } : DB) start =
      ({ weeks := [weekRowFor start fo], shifts := weekShiftRows start,
         cfgs := [], seats := [] } : DB) := by
    rw [ensureShifts_clean _ start (fun s hs => absurd hs (List.not_mem_nil s))]
    simp
  rw [e2]
  have efil : (weekShiftRows start).filter
      (fun s => decide (s.week_id = weekIdFor start)) = weekShiftRows start :=
    List.filter_eq_self.mpr (fun s hs => by simp [weekShiftRows_week_id s hs])
  have e3 : weekSids
      ({ weeks := [weekRowFor start fo], shifts := weekShiftRows start,
         cfgs := [], seats := [] } : DB)
      (weekIdFor start) = weekSidList start := by
    show ((weekShiftRows start).filter
      (fun s => decide (s.week_id = weekIdFor start))).map
        (fun s => s.shift_id) = weekSidList start
    rw [efil]
    rfl
  rw [e3]
  rw [foldProcess_clean units fo (weekSidList start) _ hu
    (weekSidList_nodup start)
    (fun c hc => absurd hc (List.not_mem_nil c))
    (fun r hr => absurd hr (List.not_mem_nil r))]
  simp

theorem filter_ne_length (units : List String) (fo : String)
    (hnd : units.Nodup) (hmem : fo ∈ units) :
    (units.filter (fun u => !(u == fo))).length + 1 = units.length := by
  induction units with
  | nil => cases hmem
  | cons a rest ih =>
    rw [List.nodup_cons] at hnd
    rcases hnd with ⟨ha, hrest⟩
    rcases List.mem_cons.mp hmem with rfl | hmem2
    · have hfil : rest.filter (fun u => !(u == fo)) = rest :=
        List.filter_eq_self.mpr (fun u hu => by
          have hne : u ≠ fo := fun he => ha (he ▸ hu)
          simp [hne])
      simp [List.filter_cons, hfil]
    · have hane : a ≠ fo := fun he => ha (he ▸ hmem2)
      simp only [List.filter_cons]
      rw [if_pos (by simp [hane])]
      simp only [List.length_cons]
      have := ih hrest hmem2
      omega

theorem length_bind_pair {α β : Type _} (us : List α) (f g : α → β) :
    (us.bind (fun u => [f u, g u])).length = 2 * us.length := by
  induction us with
  | nil => rfl
  | cons a rest ih =>
    simp [ih]
    omega

theorem shiftSeats_length (units : List String) (fo : String) (sid : ShiftId)
    (hnd : units.Nodup) (hmem : fo ∈ units) :
    (shiftSeats units fo sid).length = 2 * units.length := by
  have h := filter_ne_length units fo hnd hmem
  have h2 := length_bind_pair (units.filter (fun u => !(u == fo)))
    (fun u => defaultSeatRow sid u "ATTENDANT" "SHADOW")
    (fun u => defaultSeatRow sid u "DRIVER" "SHADOW")
  simp only [shiftSeats, List.length_append, List.length_cons,
    List.length_nil, h2]
  omega

theorem shiftSeats_filter_key (units : List String) (fo : String)
    (sids : List ShiftId) (hnd : sids.Nodup) (sid : ShiftId)
    (hmem : sid ∈ sids) :
    (sids.bind (shiftSeats units fo)).filter
      (fun r => r.shift_id == sid) = shiftSeats units fo sid := by
  induction sids with
  | nil => cases hmem
  | cons a rest ih =>
    rw [List.nodup_cons] at hnd
    rcases hnd with ⟨ha, hrest⟩
    have hb : (a :: rest).bind (shiftSeats units fo) =
        shiftSeats units fo a ++ rest.bind (shiftSeats units fo) := rfl
    rw [hb, List.filter_append]
    rcases List.mem_cons.mp hmem with rfl | hmem2
    · have h1 : (shiftSeats units fo sid).filter
          (fun r => r.shift_id == sid) = shiftSeats units fo sid :=
        List.filter_eq_self.mpr (fun r hr => by
          simp [(shiftSeats_mem_shift hr).2])
      have h2 : (rest.bind (shiftSeats units fo)).filter
          (fun r => r.shift_id == sid) = [] := by
        rw [List.filter_eq_nil_iff]
        intro r hr
        obtain ⟨s', hs', hr2⟩ := List.mem_bind.mp hr
        rw [(shiftSeats_mem_shift hr2).2]
        simp
        exact fun he => ha (he ▸ hs')
      rw [h1, h2, List.append_nil]
    · have hne : a ≠ sid := fun he => ha (he ▸ hmem2)
      have h1 : (shiftSeats units fo a).filter
          (fun r => r.shift_id == sid) = [] := by
        rw [List.filter_eq_nil_iff]
        intro r hr
        rw [(shiftSeats_mem_shift hr).2]
        simp
        exact hne
      rw [h1, ih hrest hmem2, List.nil_append]

theorem shiftSeats_shadow_layer {units : List String} {fo : String}
    {sid : ShiftId} {r : SeatRow}
    (hr : r ∈ (units.filter (fun u => !(u == fo))).bind (fun u =>
      [defaultSeatRow sid u "ATTENDANT" "SHADOW",
       defaultSeatRow sid u "DRIVER" "SHADOW"])) : r.layer = "SHADOW" := by
  obtain ⟨u, _, hr2⟩ := List.mem_bind.mp hr
  rcases List.mem_cons.mp hr2 with rfl | hr3
  · rfl
  · rw [List.mem_singleton.mp hr3]
    rfl

theorem shiftSeats_filter_primary (units : List String) (fo : String)
    (sid : ShiftId) :
    (shiftSeats units fo sid).filter (fun r => r.layer == "PRIMARY") =
      [defaultSeatRow sid fo "ATTENDANT" "PRIMARY",
       defaultSeatRow sid fo "DRIVER" "PRIMARY"] := by
  unfold shiftSeats
  rw [List.filter_append]
  have h2 : ((units.filter (fun u => !(u == fo))).bind (fun u =>
      [defaultSeatRow sid u "ATTENDANT" "SHADOW",
       defaultSeatRow sid u "DRIVER" "SHADOW"])).filter
        (fun r => r.layer == "PRIMARY") = [] := by
    rw [List.filter_eq_nil_iff]
    intro r hr
    rw [shiftSeats_shadow_layer hr]
    simp
  rw [h2, List.append_nil]
  rfl

theorem shiftSeats_filter_shadow (units : List String) (fo : String)
    (sid : ShiftId) :
    (shiftSeats units fo sid).filter (fun r => r.layer == "SHADOW") =
      (units.filter (fun u => !(u == fo))).bind (fun u =>
        [defaultSeatRow sid u "ATTENDANT" "SHADOW",
         defaultSeatRow sid u "DRIVER" "SHADOW"]) := by
  unfold shiftSeats
  rw [List.filter_append]
  have h2 : ((units.filter (fun u => !(u == fo))).bind (fun u =>
      [defaultSeatRow sid u "ATTENDANT" "SHADOW",
       defaultSeatRow sid u "DRIVER" "SHADOW"])).filter
        (fun r => r.layer == "SHADOW") =
      (units.filter (fun u => !(u == fo))).bind (fun u =>
        [defaultSeatRow sid u "ATTENDANT" "SHADOW",
         defaultSeatRow sid u "DRIVER" "SHADOW"]) :=
    List.filter_eq_self.mpr (fun r hr => by
      rw [shiftSeats_shadow_layer hr]
      simp)
  rw [h2]
  rfl

theorem map_bind_pair {α β γ : Type _} (us : List α) (f g : α → β)
    (h : β → γ) :
    (us.bind (fun u => [f u, g u])).map h =
      us.bind (fun u => [h (f u), h (g u)]) := by
  induction us with
  | nil => rfl
  | cons a rest ih => simp [ih]

theorem filter_and_split {p q : SeatRow → Bool} (l : List SeatRow) :
    l.filter (fun r => p r && q r) = (l.filter p).filter q := by
  induction l with
  | nil => rfl
  | cons a t ih =>
    cases hp : p a <;> cases hq : q a <;>
      simp [List.filter_cons, hp, hq, ih]

theorem weekShiftRows_cases {start : Int} {s : ShiftRow}
    (hs : s ∈ weekShiftRows start) :
    ∃ di, di < 7 ∧ (s = dayShiftRow (weekIdFor start) start di ∨
      s = nightShiftRow (weekIdFor start) start di) := by
  simp only [weekShiftRows, List.mem_bind, List.mem_range, List.mem_cons,
    List.not_mem_nil, or_false] at hs
  exact hs

/-- Claim C1: on a fresh database, `ensure_week` creates exactly one week
row (end = start + 6, lock = start − 28 at 00:00, DRAFT), 14 shifts — 7 DAY
(06:00–18:00) and 7 NIGHT (18:00 to 06:00 the next day) — one config per
shift with staffed unit = first-out, no override, not salary-only, active,
and per shift `2 × |units|` seat records: PRIMARY attendant and driver for
the first-out unit, SHADOW attendant and driver for every other rotation
unit, all with entity type NONE, health UNFILLED, and no assignment. -/
theorem ensure_week_fresh_generation (units : List String) (start : Int)
    (fo : String) (hmem : fo ∈ units) (hnd : units.Nodup) :
    (ensure_week units emptyDB start fo).weeks =
      [{ week_id := weekIdFor start, start_date := start,
         end_date := start + 6, lock_dt := ⟨start - 28, 0⟩,
         first_out_default_unit_id := fo, status := "DRAFT" }] ∧
    (ensure_week units emptyDB start fo).shifts.length = 14 ∧
    ((ensure_week units emptyDB start fo).shifts.filter
      (fun s => s.slot == "DAY")).length = 7 ∧
    ((ensure_week units emptyDB start fo).shifts.filter
      (fun s => s.slot == "NIGHT")).length = 7 ∧
    (∀ s ∈ (ensure_week units emptyDB start fo).shifts,
      s.week_id = weekIdFor start ∧ s.day_index < 7 ∧
      (s.slot = "DAY" → s.shift_start = ⟨start + s.day_index, 6⟩ ∧
        s.shift_end = ⟨start + s.day_index, 18⟩) ∧
      (s.slot = "NIGHT" → s.shift_start = ⟨start + s.day_index, 18⟩ ∧
        s.shift_end = ⟨start + s.day_index + 1, 6⟩)) ∧
    (ensure_week units emptyDB start fo).cfgs =
      (ensure_week units emptyDB start fo).shifts.map (fun s =>
        { shift_id := s.shift_id, first_out_override_unit_id := none,
          staffed_unit_id := some fo, is_salary_only := false,
          active := true }) ∧
    (∀ s ∈ (ensure_week units emptyDB start fo).shifts,
      ((ensure_week units emptyDB start fo).seats.filter
        (fun r => r.shift_id == s.shift_id)).length = 2 * units.length ∧
      ((ensure_week units emptyDB start fo).seats.filter
        (fun r => r.shift_id == s.shift_id && r.layer == "PRIMARY")).map
          (fun r => (r.unit_id, r.seat_id)) =
        [(fo, "ATTENDANT"), (fo, "DRIVER")] ∧
      ((ensure_week units emptyDB start fo).seats.filter
        (fun r => r.shift_id == s.shift_id && r.layer == "SHADOW")).map
          (fun r => (r.unit_id, r.seat_id)) =
        (units.filter (fun u => !(u == fo))).bind
          (fun u => [(u, "ATTENDANT"), (u, "DRIVER")])) ∧
    (∀ r ∈ (ensure_week units emptyDB start fo).seats,
      r.assigned_entity_type = "NONE" ∧ r.health_status = "UNFILLED" ∧
      r.assigned_person_id = none ∧ r.assigned_placeholder_id = none ∧
      r.note = none) := by
  rw [ensure_week_empty_eq units start fo hnd]
  refine ⟨rfl, rfl, rfl, rfl, ?_, ?_, ?_, ?_⟩
  · intro s hs
    obtain ⟨di, hdi, rfl | rfl⟩ := weekShiftRows_cases hs
    · exact ⟨rfl, hdi, fun _ => ⟨rfl, rfl⟩, fun hcon =>
        absurd (show ("DAY" : String) = "NIGHT" from hcon) (by decide)⟩
    · exact ⟨rfl, hdi, fun hcon =>
        absurd (show ("NIGHT" : String) = "DAY" from hcon) (by decide),
        fun _ => ⟨rfl, rfl⟩⟩
  · show ((weekShiftRows start).map (fun t => t.shift_id)).map
        (fun sid => defaultCfgRow sid fo) =
      (weekShiftRows start).map (fun s =>
        ({ shift_id := s.shift_id, first_out_override_unit_id := none,
           staffed_unit_id := some fo, is_salary_only := false,
           active := true } : CfgRow))
    rw [List.map_map]
    rfl
  · intro s hs
    have hsid : s.shift_id ∈ weekSidList start :=
      List.mem_map_of_mem (fun t => t.shift_id) hs
    have hkeyfil := shiftSeats_filter_key units fo (weekSidList start)
      (weekSidList_nodup start) s.shift_id hsid
    refine ⟨?_, ?_, ?_⟩
    · rw [hkeyfil]
      exact shiftSeats_length units fo s.shift_id hnd hmem
    · rw [filter_and_split, hkeyfil, shiftSeats_filter_primary]
      rfl
    · rw [filter_and_split, hkeyfil, shiftSeats_filter_shadow,
        map_bind_pair]
      rfl
  · intro r hr
    obtain ⟨sid, _, hr2⟩ := List.mem_bind.mp hr
    simp only [shiftSeats, List.mem_append, List.mem_cons, List.mem_bind,
      List.not_mem_nil, or_false] at hr2
    rcases hr2 with (rfl | rfl) | ⟨u, -, rfl | rfl⟩ <;>
      exact ⟨rfl, rfl, rfl, rfl, rfl⟩

/-- Claim C1, witness instance at the December 2025 rotation parameters. -/
theorem ensure_week_fresh_generation_witness :
    (ensure_week ["AMB120", "AMB121", "AMB131"] emptyDB 0
      "AMB121").shifts.length = 14 :=
  (ensure_week_fresh_generation ["AMB120", "AMB121", "AMB131"] 0 "AMB121"
    (by decide) (by decide)).2.1

/-! ## Week generator: idempotence under assignment edits (claim C2) -/

/-- `db'` differs from `db` only in assignment fields of seat records
(entity type, person id, placeholder id, health status, note): weeks,
shifts and configs are identical, and the seat rows correspond one to one
with the same id and key columns. -/
def AssignmentEditOf (db db' : DB) : Prop :=
  db'.weeks = db.weeks ∧ db'.shifts = db.shifts ∧ db'.cfgs = db.cfgs ∧
  db'.seats.length = db.seats.length ∧
  (db.seats.zip db'.seats).all (fun p =>
    p.1.seat_record_id == p.2.seat_record_id &&
    p.1.shift_id == p.2.shift_id && p.1.unit_id == p.2.unit_id &&
    p.1.seat_id == p.2.seat_id && p.1.layer == p.2.layer) = true

instance (db db' : DB) : Decidable (AssignmentEditOf db db') := by
  unfold AssignmentEditOf
  infer_instance

theorem edit_seats_present {l l' : List SeatRow}
    (hlen : l'.length = l.length)
    (hall : (l.zip l').all (fun p =>
      p.1.seat_record_id == p.2.seat_record_id &&
      p.1.shift_id == p.2.shift_id && p.1.unit_id == p.2.unit_id &&
      p.1.seat_id == p.2.seat_id && p.1.layer == p.2.layer) = true)
    (sid : SeatId) (h : ∃ r ∈ l, r.seat_record_id = sid) :
    ∃ r ∈ l', r.seat_record_id = sid := by
  induction l generalizing l' with
  | nil => obtain ⟨r, hr, -⟩ := h; cases hr
  | cons a t ih =>
    cases l' with
    | nil => cases hlen
    | cons b t' =>
      rw [List.zip_cons_cons, List.all_cons, Bool.and_eq_true] at hall
      rcases hall with ⟨hhead, htail⟩
      simp only [Bool.and_eq_true, beq_iff_eq] at hhead
      obtain ⟨r, hr, hrid⟩ := h
      rcases List.mem_cons.mp hr with rfl | hrt
      · exact ⟨b, List.mem_cons_self b t', hhead.1.1.1.1 ▸ hrid⟩
      · obtain ⟨r', hr', hrid'⟩ := ih (by simpa using hlen) htail ⟨r, hrt, hrid⟩
        exact ⟨r', List.mem_cons_of_mem b hr', hrid'⟩

/-- The per-shift completeness `ensure_week` establishes: a config row for
the shift exists, and for the staffed unit read back from the configs the
full seat layout is present. -/
abbrev ShiftEnsured (units : List String) (fo : String) (sid : ShiftId)
    (db : DB) : Prop :=
  (∃ c ∈ db.cfgs, c.shift_id = sid) ∧
  (∀ p ∈ LAYERS, ∀ u ∈ unitsForLayer units (readStaffed db sid fo) p.2,
    ∀ seat ∈ SEATS,
    ∃ r ∈ db.seats, r.seat_record_id = genSeatRecordId sid u seat p.1)

/-- Everything `ensure_week` needs to find already present: the week row,
the 14 shift rows, and for every shift of the week a config row and the
full seat layout for the staffed unit it would read back. -/
def EnsureComplete (units : List String) (db : DB) (start : Int)
    (fo : String) : Prop :=
  (∃ w ∈ db.weeks, w.week_id = weekIdFor start) ∧
  (∀ di < 7,
    (∃ s ∈ db.shifts, s.shift_id = shiftIdFor (weekIdFor start) di "DAY") ∧
    (∃ s ∈ db.shifts, s.shift_id = shiftIdFor (weekIdFor start) di "NIGHT")) ∧
  (∀ sid ∈ weekSids db (weekIdFor start), ShiftEnsured units fo sid db)

theorem insertWeek_skip (db : DB) (w : WeekRow)
    (h : ∃ r ∈ db.weeks, r.week_id = w.week_id) :
    insertWeekIfAbsent db w = db := by
  unfold insertWeekIfAbsent
  rw [if_pos]
  simp only [List.any_eq_true, decide_eq_true_eq]
  exact h

theorem ensureSeatsLayer_fixed (db : DB) (sid : ShiftId) (layer : String)
    (us : List String)
    (h : ∀ u ∈ us, ∀ seat ∈ SEATS,
      ∃ r ∈ db.seats, r.seat_record_id = genSeatRecordId sid u seat layer) :
    ensureSeatsLayer db sid layer us = db := by
  unfold ensureSeatsLayer
  apply foldl_fixed
  intro u hu
  apply foldl_fixed
  intro seat hseat
  exact insertSeat_skip db _ (by
    obtain ⟨r, hr, hrid⟩ := h u hu seat hseat
    exact ⟨r, hr, hrid⟩)

/-- One full idempotence direction: when everything is already present,
`ensure_week` is the identity. -/
theorem ensure_week_noop (units : List String) (db : DB) (start : Int)
    (fo : String) (hc : EnsureComplete units db start fo) :
    ensure_week units db start fo = db := by
  obtain ⟨hweek, hshift, hrest⟩ := hc
  have e1 : ensureWeekRow db start fo = db :=
    insertWeek_skip db _ hweek
  have e2 : ensureShifts db start = db := by
    unfold ensureShifts
    apply foldl_fixed
    intro di hdi
    have hdi7 := List.mem_range.mp hdi
    show insertShiftIfAbsent (insertShiftIfAbsent db
      (dayShiftRow (weekIdFor start) start di))
      (nightShiftRow (weekIdFor start) start di) = db
    rw [insertShift_skip db _ (hshift di hdi7).1,
      insertShift_skip db _ (hshift di hdi7).2]
  show (weekSids (ensureShifts (ensureWeekRow db start fo) start)
      (weekIdFor start)).foldl (processShift units fo)
    (ensureShifts (ensureWeekRow db start fo) start) = db
  rw [e1, e2]
  apply foldl_fixed
  intro sid hsid
  obtain ⟨hcfg, hseats⟩ := hrest sid hsid
  show ensureSeatsFor (ensureCfg db sid fo) units sid
    (readStaffed (ensureCfg db sid fo) sid fo) = db
  rw [ensureCfg_skip db sid fo hcfg]
  show ensureSeatsLayer (ensureSeatsLayer db sid "PRIMARY"
      (unitsForLayer units (readStaffed db sid fo) true)) sid "SHADOW"
    (unitsForLayer units (readStaffed db sid fo) false) = db
  rw [ensureSeatsLayer_fixed db sid "PRIMARY" _
    (hseats ("PRIMARY", true) (List.mem_cons_self _ _)),
    ensureSeatsLayer_fixed db sid "SHADOW" _
    (hseats ("SHADOW", false) (by simp [LAYERS]))]

theorem foldl_preserves {α β : Type _} (f : β → α → β) (Q : β → Prop)
    (h : ∀ b x, Q b → Q (f b x)) :
    ∀ (l : List α) (b : β), Q b → Q (l.foldl f b) := by
  intro l
  induction l with
  | nil => exact fun b hb => hb
  | cons a t ih => exact fun b hb => ih (f b a) (h b a hb)

theorem foldl_establishes {α β : Type _} (f : β → α → β) (P : α → β → Prop)
    (hstep : ∀ b x, P x (f b x)) (hpres : ∀ b x y, P y b → P y (f b x)) :
    ∀ (l : List α) (b : β), ∀ x ∈ l, P x (l.foldl f b) := by
  intro l
  induction l with
  | nil => intro b x hx; cases hx
  | cons a t ih =>
    intro b x hx
    rw [List.foldl_cons]
    rcases List.mem_cons.mp hx with rfl | hxt
    · exact foldl_preserves f (P x) (fun b y hb => hpres b y x hb) t (f b x)
        (hstep b x)
    · exact ih (f b a) x hxt

theorem insertSeat_frame (db : DB) (row : SeatRow) :
    (insertSeatIfAbsent db row).weeks = db.weeks ∧
    (insertSeatIfAbsent db row).shifts = db.shifts ∧
    (insertSeatIfAbsent db row).cfgs = db.cfgs ∧
    ∃ t, (insertSeatIfAbsent db row).seats = db.seats ++ t := by
  unfold insertSeatIfAbsent
  split
  · exact ⟨rfl, rfl, rfl, [], by simp⟩
  · exact ⟨rfl, rfl, rfl, [row], rfl⟩

theorem insertSeat_present (db : DB) (row : SeatRow) :
    ∃ r ∈ (insertSeatIfAbsent db row).seats,
      r.seat_record_id = row.seat_record_id := by
  unfold insertSeatIfAbsent
  split
  next hany =>
    obtain ⟨r, hr, hid⟩ := List.any_eq_true.mp hany
    exact ⟨r, hr, decide_eq_true_eq.mp hid⟩
  next =>
    exact ⟨row, List.mem_append_right _ (List.mem_singleton.mpr rfl), rfl⟩

theorem ensureSeatsLayer_frame (db : DB) (sid : ShiftId) (layer : String)
    (us : List String) :
    (ensureSeatsLayer db sid layer us).weeks = db.weeks ∧
    (ensureSeatsLayer db sid layer us).shifts = db.shifts ∧
    (ensureSeatsLayer db sid layer us).cfgs = db.cfgs ∧
    ∃ t, (ensureSeatsLayer db sid layer us).seats = db.seats ++ t := by
  unfold ensureSeatsLayer
  refine foldl_preserves _ (fun dbx => dbx.weeks = db.weeks ∧
    dbx.shifts = db.shifts ∧ dbx.cfgs = db.cfgs ∧
    ∃ t, dbx.seats = db.seats ++ t) ?_ us db ⟨rfl, rfl, rfl, [], by simp⟩
  intro dbx u hq
  refine foldl_preserves _ (fun dby => dby.weeks = db.weeks ∧
    dby.shifts = db.shifts ∧ dby.cfgs = db.cfgs ∧
    ∃ t, dby.seats = db.seats ++ t) ?_ SEATS dbx hq
  intro dby seat hq2
  obtain ⟨h1, h2, h3, t, ht⟩ := hq2
  obtain ⟨g1, g2, g3, t2, ht2⟩ := insertSeat_frame dby
    (defaultSeatRow sid u seat layer)
  exact ⟨g1.trans h1, g2.trans h2, g3.trans h3, t ++ t2, by
    rw [ht2, ht, List.append_assoc]⟩

theorem ensureCfg_frame (db : DB) (sid : ShiftId) (fo : String) :
    (ensureCfg db sid fo).weeks = db.weeks ∧
    (ensureCfg db sid fo).shifts = db.shifts ∧
    (ensureCfg db sid fo).seats = db.seats ∧
    ∃ t, (ensureCfg db sid fo).cfgs = db.cfgs ++ t := by
  unfold ensureCfg
  split
  · exact ⟨rfl, rfl, rfl, [], by simp⟩
  · exact ⟨rfl, rfl, rfl, [defaultCfgRow sid fo], rfl⟩

theorem ensureCfg_present (db : DB) (sid : ShiftId) (fo : String) :
    ∃ c ∈ (ensureCfg db sid fo).cfgs, c.shift_id = sid := by
  unfold ensureCfg
  split
  next hany =>
    obtain ⟨c, hc, hid⟩ := List.any_eq_true.mp hany
    exact ⟨c, hc, decide_eq_true_eq.mp hid⟩
  next =>
    exact ⟨defaultCfgRow sid fo,
      List.mem_append_right _ (List.mem_singleton.mpr rfl), rfl⟩

theorem ensureSeatsFor_frame (units : List String) (sid : ShiftId)
    (dbx : DB) (staffed : String) :
    (ensureSeatsFor dbx units sid staffed).weeks = dbx.weeks ∧
    (ensureSeatsFor dbx units sid staffed).shifts = dbx.shifts ∧
    (ensureSeatsFor dbx units sid staffed).cfgs = dbx.cfgs ∧
    ∃ t, (ensureSeatsFor dbx units sid staffed).seats = dbx.seats ++ t := by
  obtain ⟨p1, p2, p3, tp, hp⟩ := ensureSeatsLayer_frame dbx sid "PRIMARY"
    (unitsForLayer units staffed true)
  obtain ⟨s1, s2, s3, ts, hs⟩ := ensureSeatsLayer_frame
    (ensureSeatsLayer dbx sid "PRIMARY" (unitsForLayer units staffed true))
    sid "SHADOW" (unitsForLayer units staffed false)
  show (ensureSeatsLayer (ensureSeatsLayer dbx sid "PRIMARY"
      (unitsForLayer units staffed true)) sid "SHADOW"
      (unitsForLayer units staffed false)).weeks = dbx.weeks ∧
    (ensureSeatsLayer (ensureSeatsLayer dbx sid "PRIMARY"
      (unitsForLayer units staffed true)) sid "SHADOW"
      (unitsForLayer units staffed false)).shifts = dbx.shifts ∧
    (ensureSeatsLayer (ensureSeatsLayer dbx sid "PRIMARY"
      (unitsForLayer units staffed true)) sid "SHADOW"
      (unitsForLayer units staffed false)).cfgs = dbx.cfgs ∧
    ∃ t, (ensureSeatsLayer (ensureSeatsLayer dbx sid "PRIMARY"
      (unitsForLayer units staffed true)) sid "SHADOW"
      (unitsForLayer units staffed false)).seats = dbx.seats ++ t
  exact ⟨s1.trans p1, s2.trans p2, s3.trans p3, tp ++ ts, by
    rw [hs, hp, List.append_assoc]⟩

theorem processShift_frame (units : List String) (fo : String) (db : DB)
    (sid : ShiftId) :
    (processShift units fo db sid).weeks = db.weeks ∧
    (processShift units fo db sid).shifts = db.shifts ∧
    (∃ t, (processShift units fo db sid).cfgs = db.cfgs ++ t) ∧
    ∃ t, (processShift units fo db sid).seats = db.seats ++ t := by
  obtain ⟨c1, c2, c3, tc, hc⟩ := ensureCfg_frame db sid fo
  obtain ⟨f1, f2, f3, tf, hf⟩ := ensureSeatsFor_frame units sid
    (ensureCfg db sid fo) (readStaffed (ensureCfg db sid fo) sid fo)
  show (ensureSeatsFor (ensureCfg db sid fo) units sid
      (readStaffed (ensureCfg db sid fo) sid fo)).weeks = db.weeks ∧
    (ensureSeatsFor (ensureCfg db sid fo) units sid
      (readStaffed (ensureCfg db sid fo) sid fo)).shifts = db.shifts ∧
    (∃ t, (ensureSeatsFor (ensureCfg db sid fo) units sid
      (readStaffed (ensureCfg db sid fo) sid fo)).cfgs = db.cfgs ++ t) ∧
    ∃ t, (ensureSeatsFor (ensureCfg db sid fo) units sid
      (readStaffed (ensureCfg db sid fo) sid fo)).seats = db.seats ++ t
  refine ⟨f1.trans c1, f2.trans c2, ⟨tc, f3.trans hc⟩, tf, ?_⟩
  rw [hf, c3]

theorem find?_append_of_isSome {α : Type _} {p : α → Bool}
    {l₁ : List α} (l₂ : List α) (h : (l₁.find? p).isSome = true) :
    (l₁ ++ l₂).find? p = l₁.find? p := by
  induction l₁ with
  | nil => cases h
  | cons a t ih =>
    cases hpa : p a
    · have hpa' : ¬p a = true := by simp [hpa]
      rw [List.cons_append, List.find?_cons_of_neg _ hpa',
        List.find?_cons_of_neg _ hpa']
      rw [List.find?_cons_of_neg _ hpa'] at h
      exact ih h
    · rw [List.cons_append, List.find?_cons_of_pos _ hpa,
        List.find?_cons_of_pos _ hpa]

theorem readStaffed_stable (db : DB) (db' : DB) (sid : ShiftId) (fo : String)
    (hpre : ∃ c ∈ db.cfgs, c.shift_id = sid)
    (happ : ∃ t, db'.cfgs = db.cfgs ++ t) :
    readStaffed db' sid fo = readStaffed db sid fo := by
  obtain ⟨t, ht⟩ := happ
  unfold readStaffed
  rw [ht, find?_append_of_isSome t]
  rw [List.find?_isSome]
  obtain ⟨c, hc, hcid⟩ := hpre
  exact ⟨c, hc, by simp [hcid]⟩

theorem exists_mem_append {α : Type _} {l t : List α} {P : α → Prop}
    (h : ∃ x ∈ l, P x) : ∃ x ∈ l ++ t, P x :=
  let ⟨x, hx, hp⟩ := h
  ⟨x, List.mem_append_left t hx, hp⟩

theorem insertWeek_present (db : DB) (w : WeekRow) :
    ∃ r ∈ (insertWeekIfAbsent db w).weeks, r.week_id = w.week_id := by
  unfold insertWeekIfAbsent
  split
  next hany =>
    obtain ⟨r, hr, hid⟩ := List.any_eq_true.mp hany
    exact ⟨r, hr, decide_eq_true_eq.mp hid⟩
  next =>
    exact ⟨w, List.mem_append_right _ (List.mem_singleton.mpr rfl), rfl⟩

theorem insertShift_present (db : DB) (s : ShiftRow) :
    ∃ r ∈ (insertShiftIfAbsent db s).shifts, r.shift_id = s.shift_id := by
  unfold insertShiftIfAbsent
  split
  next hany =>
    obtain ⟨r, hr, hid⟩ := List.any_eq_true.mp hany
    exact ⟨r, hr, decide_eq_true_eq.mp hid⟩
  next =>
    exact ⟨s, List.mem_append_right _ (List.mem_singleton.mpr rfl), rfl⟩

theorem insertShift_frame (db : DB) (s : ShiftRow) :
    (insertShiftIfAbsent db s).weeks = db.weeks ∧
    (insertShiftIfAbsent db s).cfgs = db.cfgs ∧
    (insertShiftIfAbsent db s).seats = db.seats ∧
    ∃ t, (insertShiftIfAbsent db s).shifts = db.shifts ++ t := by
  unfold insertShiftIfAbsent
  split
  · exact ⟨rfl, rfl, rfl, [], by simp⟩
  · exact ⟨rfl, rfl, rfl, [s], rfl⟩

theorem ensureShifts_frame (db : DB) (start : Int) :
    (ensureShifts db start).weeks = db.weeks ∧
    (ensureShifts db start).cfgs = db.cfgs ∧
    (ensureShifts db start).seats = db.seats ∧
    ∃ t, (ensureShifts db start).shifts = db.shifts ++ t := by
  unfold ensureShifts
  refine foldl_preserves _ (fun dbx => dbx.weeks = db.weeks ∧
    dbx.cfgs = db.cfgs ∧ dbx.seats = db.seats ∧
    ∃ t, dbx.shifts = db.shifts ++ t) ?_ (List.range 7) db
    ⟨rfl, rfl, rfl, [], by simp⟩
  intro dbx di hq
  obtain ⟨h1, h2, h3, t, ht⟩ := hq
  show (insertShiftIfAbsent (insertShiftIfAbsent dbx
    (dayShiftRow (weekIdFor start) start di))
    (nightShiftRow (weekIdFor start) start di)).weeks = db.weeks ∧ _
  obtain ⟨a1, a2, a3, ta, hta⟩ := insertShift_frame dbx
    (dayShiftRow (weekIdFor start) start di)
  obtain ⟨b1, b2, b3, tb, htb⟩ := insertShift_frame
    (insertShiftIfAbsent dbx (dayShiftRow (weekIdFor start) start di))
    (nightShiftRow (weekIdFor start) start di)
  exact ⟨b1.trans (a1.trans h1), b2.trans (a2.trans h2),
    b3.trans (a3.trans h3), t ++ (ta ++ tb), by
      rw [htb, hta, ht, List.append_assoc, List.append_assoc]⟩

theorem ensureShifts_establishes (db : DB) (start : Int) :
    ∀ di < 7,
      (∃ s ∈ (ensureShifts db start).shifts,
        s.shift_id = shiftIdFor (weekIdFor start) di "DAY") ∧
      (∃ s ∈ (ensureShifts db start).shifts,
        s.shift_id = shiftIdFor (weekIdFor start) di "NIGHT") := by
  intro di hdi
  have hmem : di ∈ List.range 7 := List.mem_range.mpr hdi
  unfold ensureShifts
  refine foldl_establishes _ (fun di dbx =>
    (∃ s ∈ dbx.shifts, s.shift_id = shiftIdFor (weekIdFor start) di "DAY") ∧
    (∃ s ∈ dbx.shifts, s.shift_id = shiftIdFor (weekIdFor start) di "NIGHT"))
    ?hstep ?hpres (List.range 7) db di hmem
  case hstep =>
    intro dbx di'
    show (∃ s ∈ (insertShiftIfAbsent (insertShiftIfAbsent dbx
        (dayShiftRow (weekIdFor start) start di'))
        (nightShiftRow (weekIdFor start) start di')).shifts,
      s.shift_id = shiftIdFor (weekIdFor start) di' "DAY") ∧
      (∃ s ∈ (insertShiftIfAbsent (insertShiftIfAbsent dbx
        (dayShiftRow (weekIdFor start) start di'))
        (nightShiftRow (weekIdFor start) start di')).shifts,
      s.shift_id = shiftIdFor (weekIdFor start) di' "NIGHT")
    constructor
    · obtain ⟨-, -, -, t, ht⟩ := insertShift_frame
        (insertShiftIfAbsent dbx (dayShiftRow (weekIdFor start) start di'))
        (nightShiftRow (weekIdFor start) start di')
      rw [ht]
      exact exists_mem_append (insertShift_present dbx _)
    · exact insertShift_present _ _
  case hpres =>
    intro dbx di' y hy
    show (∃ s ∈ (insertShiftIfAbsent (insertShiftIfAbsent dbx
        (dayShiftRow (weekIdFor start) start di'))
        (nightShiftRow (weekIdFor start) start di')).shifts,
      s.shift_id = shiftIdFor (weekIdFor start) y "DAY") ∧
      (∃ s ∈ (insertShiftIfAbsent (insertShiftIfAbsent dbx
        (dayShiftRow (weekIdFor start) start di'))
        (nightShiftRow (weekIdFor start) start di')).shifts,
      s.shift_id = shiftIdFor (weekIdFor start) y "NIGHT")
    obtain ⟨-, -, -, ta, hta⟩ := insertShift_frame dbx
      (dayShiftRow (weekIdFor start) start di')
    obtain ⟨-, -, -, tb, htb⟩ := insertShift_frame
      (insertShiftIfAbsent dbx (dayShiftRow (weekIdFor start) start di'))
      (nightShiftRow (weekIdFor start) start di')
    rw [htb, hta]
    exact ⟨exists_mem_append (exists_mem_append hy.1),
      exists_mem_append (exists_mem_append hy.2)⟩

theorem readStaffed_congr {db db' : DB} (sid : ShiftId) (fo : String)
    (h : db.cfgs = db'.cfgs) : readStaffed db sid fo = readStaffed db' sid fo := by
  unfold readStaffed
  rw [h]

theorem weekSids_congr {db db' : DB} (wid : WeekId)
    (h : db.shifts = db'.shifts) : weekSids db wid = weekSids db' wid := by
  unfold weekSids
  rw [h]

theorem ensureSeatsLayer_establishes (db : DB) (sid : ShiftId)
    (layer : String) (us : List String) :
    ∀ u ∈ us, ∀ seat ∈ SEATS,
      ∃ r ∈ (ensureSeatsLayer db sid layer us).seats,
        r.seat_record_id = genSeatRecordId sid u seat layer := by
  unfold ensureSeatsLayer
  intro u hu
  refine foldl_establishes _ (fun u dbx => ∀ seat ∈ SEATS,
    ∃ r ∈ dbx.seats, r.seat_record_id = genSeatRecordId sid u seat layer)
    ?hstep ?hpres us db u hu
  case hstep =>
    intro dbx u' seat hseat
    refine foldl_establishes _ (fun seat dby =>
      ∃ r ∈ dby.seats, r.seat_record_id = genSeatRecordId sid u' seat layer)
      ?s1 ?s2 SEATS dbx seat hseat
    case s1 =>
      intro dby seat'
      exact insertSeat_present dby _
    case s2 =>
      intro dby seat' y hy
      obtain ⟨-, -, -, t, ht⟩ := insertSeat_frame dby
        (defaultSeatRow sid u' seat' layer)
      rw [ht]
      exact exists_mem_append hy
  case hpres =>
    intro dbx u' y hy seat hseat
    obtain ⟨-, -, -, t, ht⟩ := ensureSeatsLayer_frame dbx sid layer [u']
    have ht' : (SEATS.foldl (fun db seat =>
        insertSeatIfAbsent db (defaultSeatRow sid u' seat layer)) dbx).seats =
        dbx.seats ++ t := ht
    rw [ht']
    exact exists_mem_append (hy seat hseat)

theorem ensureSeatsFor_establishes (units : List String) (sid : ShiftId)
    (dbx : DB) (st : String) :
    ∀ p ∈ LAYERS, ∀ u ∈ unitsForLayer units st p.2, ∀ seat ∈ SEATS,
      ∃ r ∈ (ensureSeatsFor dbx units sid st).seats,
        r.seat_record_id = genSeatRecordId sid u seat p.1 := by
  intro p hp u hu seat hseat
  have hp' : p = ("PRIMARY", true) ∨ p = ("SHADOW", false) := by
    simpa [LAYERS] using hp
  show ∃ r ∈ (ensureSeatsLayer (ensureSeatsLayer dbx sid "PRIMARY"
      (unitsForLayer units st true)) sid "SHADOW"
      (unitsForLayer units st false)).seats,
    r.seat_record_id = genSeatRecordId sid u seat p.1
  rcases hp' with rfl | rfl
  · obtain ⟨-, -, -, t, ht⟩ := ensureSeatsLayer_frame
      (ensureSeatsLayer dbx sid "PRIMARY" (unitsForLayer units st true))
      sid "SHADOW" (unitsForLayer units st false)
    rw [ht]
    exact exists_mem_append (ensureSeatsLayer_establishes dbx sid "PRIMARY"
      (unitsForLayer units st true) u hu seat hseat)
  · exact ensureSeatsLayer_establishes _ sid "SHADOW"
      (unitsForLayer units st false) u hu seat hseat

theorem processShift_establishes (units : List String) (fo : String)
    (db : DB) (sid : ShiftId) :
    ShiftEnsured units fo sid (processShift units fo db sid) := by
  have hcfg1 : ∃ c ∈ (ensureCfg db sid fo).cfgs, c.shift_id = sid :=
    ensureCfg_present db sid fo
  obtain ⟨-, -, f3, -⟩ := ensureSeatsFor_frame units sid (ensureCfg db sid fo)
    (readStaffed (ensureCfg db sid fo) sid fo)
  have hshow : processShift units fo db sid =
      ensureSeatsFor (ensureCfg db sid fo) units sid
        (readStaffed (ensureCfg db sid fo) sid fo) := rfl
  constructor
  · rw [hshow, f3]
    exact hcfg1
  · have hread : readStaffed (processShift units fo db sid) sid fo =
        readStaffed (ensureCfg db sid fo) sid fo :=
      readStaffed_congr sid fo (by rw [hshow, f3])
    intro p hp u hu seat hseat
    rw [hread] at hu
    rw [hshow]
    exact ensureSeatsFor_establishes units sid (ensureCfg db sid fo)
      (readStaffed (ensureCfg db sid fo) sid fo) p hp u hu seat hseat

theorem processShift_preserves (units : List String) (fo : String)
    (db : DB) (sid y : ShiftId) (hy : ShiftEnsured units fo y db) :
    ShiftEnsured units fo y (processShift units fo db sid) := by
  obtain ⟨hcfg, hseats⟩ := hy
  obtain ⟨-, -, ⟨tc, hc⟩, ⟨ts, hs⟩⟩ := processShift_frame units fo db sid
  constructor
  · rw [hc]
    exact exists_mem_append hcfg
  · have hread : readStaffed (processShift units fo db sid) y fo =
        readStaffed db y fo :=
      readStaffed_stable db _ y fo hcfg ⟨tc, hc⟩
    intro p hp u hu seat hseat
    rw [hread] at hu
    rw [hs]
    exact exists_mem_append (hseats p hp u hu seat hseat)

/-- A run of `ensure_week` from any state leaves the state complete. -/
theorem ensure_week_complete (units : List String) (db0 : DB) (start : Int)
    (fo : String) :
    EnsureComplete units (ensure_week units db0 start fo) start fo := by
  have hshow : ensure_week units db0 start fo =
      (weekSids (ensureShifts (ensureWeekRow db0 start fo) start)
        (weekIdFor start)).foldl (processShift units fo)
        (ensureShifts (ensureWeekRow db0 start fo) start) := rfl
  have hw1 : ∃ w ∈ (ensureWeekRow db0 start fo).weeks,
      w.week_id = weekIdFor start := insertWeek_present db0 _
  obtain ⟨s1, s2, s3, tsh, hsh⟩ := ensureShifts_frame
    (ensureWeekRow db0 start fo) start
  have hw2 : ∃ w ∈ (ensureShifts (ensureWeekRow db0 start fo) start).weeks,
      w.week_id = weekIdFor start := by
    rw [s1]
    exact hw1
  have hshifts2 := ensureShifts_establishes (ensureWeekRow db0 start fo) start
  -- the final fold preserves weeks and shifts
  have hweeks3 : ∀ sids,
      ((sids : List ShiftId).foldl (processShift units fo)
        (ensureShifts (ensureWeekRow db0 start fo) start)).weeks =
      (ensureShifts (ensureWeekRow db0 start fo) start).weeks := by
    intro sids
    refine foldl_preserves _ (fun (dbx : DB) => dbx.weeks =
      (ensureShifts (ensureWeekRow db0 start fo) start).weeks) ?_ sids _ rfl
    intro dbx sid hq
    rw [(processShift_frame units fo dbx sid).1, hq]
  have hshifts3 : ∀ sids,
      ((sids : List ShiftId).foldl (processShift units fo)
        (ensureShifts (ensureWeekRow db0 start fo) start)).shifts =
      (ensureShifts (ensureWeekRow db0 start fo) start).shifts := by
    intro sids
    refine foldl_preserves _ (fun (dbx : DB) => dbx.shifts =
      (ensureShifts (ensureWeekRow db0 start fo) start).shifts) ?_ sids _ rfl
    intro dbx sid hq
    rw [(processShift_frame units fo dbx sid).2.1, hq]
  have hP : ∀ sid ∈ weekSids (ensureShifts (ensureWeekRow db0 start fo)
      start) (weekIdFor start),
      ShiftEnsured units fo sid (ensure_week units db0 start fo) := by
    rw [hshow]
    exact foldl_establishes _ (fun (sid : ShiftId) (dbx : DB) =>
        ShiftEnsured units fo sid dbx)
      (fun b x => processShift_establishes units fo b x)
      (fun b x y hy => processShift_preserves units fo b x y hy) _ _
  refine ⟨?_, ?_, ?_⟩
  · rw [hshow, hweeks3]
    exact hw2
  · intro di hdi
    rw [hshow, hshifts3]
    exact hshifts2 di hdi
  · intro sid hsid
    apply hP
    have heq : weekSids (ensure_week units db0 start fo) (weekIdFor start) =
        weekSids (ensureShifts (ensureWeekRow db0 start fo) start)
          (weekIdFor start) := by
      apply weekSids_congr
      rw [hshow, hshifts3]
    rw [heq] at hsid
    exact hsid

/-- Editing only assignment fields of seat records cannot break
completeness: all the ids `ensure_week` checks are untouched. -/
theorem edit_preserves_complete (units : List String) (start : Int)
    (fo : String) {db db' : DB} (h : AssignmentEditOf db db')
    (hc : EnsureComplete units db start fo) :
    EnsureComplete units db' start fo := by
  obtain ⟨hw, hs, hcfg, hlen, hall⟩ := h
  obtain ⟨cw, cs, crest⟩ := hc
  refine ⟨by rw [hw]; exact cw, ?_, ?_⟩
  · intro di hdi
    rw [hs]
    exact cs di hdi
  · intro sid hsid
    have hsids : weekSids db' (weekIdFor start) =
        weekSids db (weekIdFor start) := weekSids_congr _ hs
    rw [hsids] at hsid
    obtain ⟨ccfg, cseats⟩ := crest sid hsid
    have hreads : readStaffed db' sid fo = readStaffed db sid fo :=
      readStaffed_congr sid fo hcfg
    refine ⟨by rw [hcfg]; exact ccfg, ?_⟩
    intro p hp u hu seat hseat
    rw [hreads] at hu
    exact edit_seats_present hlen hall _ (cseats p hp u hu seat hseat)

/-- Claim C2: re-running the ensure-variant generator with identical inputs
over a state produced by a previous run — possibly with the assignment
fields (entity type, person and placeholder ids, health status, note) of
any existing seat records edited in between — is the identity: no new
rows, no duplicate ids, and no change to any edited assignment field. -/
theorem ensure_week_idempotent (units : List String) (db0 : DB)
    (start : Int) (fo : String) (db' : DB)
    (h : AssignmentEditOf (ensure_week units db0 start fo) db') :
    ensure_week units db' start fo = db' :=
  ensure_week_noop units db' start fo
    (edit_preserves_complete units start fo h
      (ensure_week_complete units db0 start fo))

/-- A concrete between-runs edit: fill every seat with person P9. -/
def fillAllSeats (db : DB) : DB :=
  { db with seats := db.seats.map (fun r =>
    { r with assigned_entity_type := "PERSON",
             assigned_person_id := some "P9",
             health_status := "FILLED",
             note := some "manual edit" }) }

set_option maxRecDepth 20000 in
/-- Claim C2, witness: generating a one-unit week, filling every seat, and
re-running the generator leaves the edited state exactly unchanged. -/
theorem ensure_week_idempotent_witness :
    ensure_week ["AMB120"] (fillAllSeats (ensure_week ["AMB120"] emptyDB 0
      "AMB120")) 0 "AMB120" =
    fillAllSeats (ensure_week ["AMB120"] emptyDB 0 "AMB120") :=
  ensure_week_idempotent ["AMB120"] emptyDB 0 "AMB120"
    (fillAllSeats (ensure_week ["AMB120"] emptyDB 0 "AMB120")) (by decide)

end ShiftCommander
